import Mathlib

set_option synthInstance.maxSize 512

/-!
Shallow embedding of the `rag_eval_bdd` evaluation harness
(`src/rag_eval_bdd/src/rag_eval_bdd/`), covering the metric registry
(`metric_registry.py`), the evaluation runner (`evaluator.py`), the
results store (`results_store.py`) and the backend client's ask-cache
(`backend_client.py`).

Modelling conventions:
* Python strings are Lean `String`s; `str.strip` is `String.trim`,
  `str.lower` is `String.toLower`, `str.replace` is `String.replace`,
  `str.split(",")` is `String.splitOn ","`, slicing `s[:n]` is
  `String.take`.
* Python floats are modelled as `ℚ` (the claims under study concern
  element selection, counting and case splits, never float rounding);
  `math.sqrt` as used by `statistics.pstdev` is an external numeric
  routine and is passed in as an oracle `sqrtFn`.
* Python `dict`s appear as association lists in insertion order.
* Fallible paths (`raise`) are `Except String`.
* The external deepeval metric objects, the HTTP backend and the
  filesystem are oracles supplied as function arguments.
-/

/-- Decidable equality for `Except`, used to state concrete runs of the
fallible embedded operations. -/
instance {ε α : Type} [DecidableEq ε] [DecidableEq α] : DecidableEq (Except ε α) :=
  fun a b =>
    match a, b with
    | Except.ok x, Except.ok y =>
      if h : x = y then Decidable.isTrue (by rw [h])
      else Decidable.isFalse (by intro hc; cases hc; exact h rfl)
    | Except.error x, Except.error y =>
      if h : x = y then Decidable.isTrue (by rw [h])
      else Decidable.isFalse (by intro hc; cases hc; exact h rfl)
    | Except.ok _, Except.error _ => Decidable.isFalse (by intro hc; cases hc)
    | Except.error _, Except.ok _ => Decidable.isFalse (by intro hc; cases hc)

namespace RagEval

/-! ### Models of the Python string primitives used by the source

These are written over `List Char` so that every definition in this file
reduces inside the kernel (`decide`/`rfl` work on concrete inputs). -/

/-- Python `str.lower()` (the source only lowercases ASCII metric/tag
names). -/
def pyLower (s : String) : String := String.mk (s.data.map Char.toLower)

/-- Strip leading and trailing whitespace from a character list. -/
def stripChars (cs : List Char) : List Char :=
  ((cs.dropWhile Char.isWhitespace).reverse.dropWhile Char.isWhitespace).reverse

/-- Python `str.strip()` with no argument: drop surrounding whitespace. -/
def pyStrip (s : String) : String := String.mk (stripChars s.data)

/-- Python `str.replace(a, b)` for the single-character patterns the
source uses (`"-"→"_"`, `" "→"_"`). -/
def replaceChar (a b : Char) (s : String) : String :=
  String.mk (s.data.map (fun c => if c = a then b else c))

/-- Core of Python `str.split(sep)` for a single-character separator. -/
def splitChar (sep : Char) (cs : List Char) : List (List Char) :=
  cs.foldr
    (fun c acc =>
      match acc with
      | [] => [[c]]
      | h :: t => if c = sep then [] :: h :: t else (c :: h) :: t)
    [[]]

/-- Python `str.split(",")`; in particular `"".split(",") == [""]`. -/
def pySplitComma (s : String) : List String := (splitChar ',' s.data).map String.mk

/-- Python string slicing `s[:n]` for `n ≥ 0` (by code points). -/
def pyTake (n : Nat) (s : String) : String := String.mk (s.data.take n)

/-- Number of code points of a string (Python `len`). -/
def pyLen (s : String) : Nat := s.data.length

/-- `METRIC_ORDER` from `metric_registry.py`. -/
def METRIC_ORDER : List String :=
  ["contextual_precision", "contextual_recall", "contextual_relevancy",
   "answer_relevancy", "faithfulness", "completeness"]

/-- `LAYER1_METRICS` from `metric_registry.py` (a set; membership only). -/
def LAYER1_METRICS : List String :=
  ["contextual_precision", "contextual_recall", "contextual_relevancy"]

/-- `LAYER2_METRICS` from `metric_registry.py`. -/
def LAYER2_METRICS : List String :=
  ["answer_relevancy", "faithfulness", "completeness"]

/-- `ALIASES` from `metric_registry.py`. -/
def ALIASES : List (String × String) :=
  [("context_precision", "contextual_precision"),
   ("contextualprecision", "contextual_precision"),
   ("contextual_precision", "contextual_precision"),
   ("context_recall", "contextual_recall"),
   ("contextual_recall", "contextual_recall"),
   ("contextualrecall", "contextual_recall"),
   ("context_relevance", "contextual_relevancy"),
   ("contextual_relevancy", "contextual_relevancy"),
   ("contextualrelevancy", "contextual_relevancy"),
   ("answer_relevancy", "answer_relevancy"),
   ("answerrelevancy", "answer_relevancy"),
   ("faithfulness", "faithfulness"),
   ("completeness", "completeness")]

/-- `normalize_metric_name` from `metric_registry.py`:
`key = name.strip().lower().replace("-","_").replace(" ","_");
return ALIASES.get(key, key)`. -/
def normalize_metric_name (name : String) : String :=
  let key := replaceChar ' ' '_' (replaceChar '-' '_' (pyLower (pyStrip name)))
  (ALIASES.lookup key).getD key

/-- `_ordered` from `metric_registry.py`: canonicalize the input and keep
`METRIC_ORDER` filtered to the members. -/
def orderedMetrics (metrics : List String) : List String :=
  let metric_set := metrics.map normalize_metric_name
  METRIC_ORDER.filter (fun metric => metric_set.contains metric)

/-- The `base` computation of `select_metrics_from_tags`
(`metric_registry.py` lines 70-76): union of the layer sets named by the
tags, defaulting to all of `METRIC_ORDER` when no layer tag is present. -/
def layerBase (normalized_tags : List String) : List String :=
  let base := (if normalized_tags.contains "layer1" then LAYER1_METRICS else [])
           ++ (if normalized_tags.contains "layer2" then LAYER2_METRICS else [])
  if base = [] then METRIC_ORDER else base

/-- The `metric_tags` computation of `select_metrics_from_tags`
(`metric_registry.py` line 78): tags that normalize to a canonical metric
name. -/
def tagMetricTags (normalized_tags : List String) : List String :=
  normalized_tags.filter (fun tag => METRIC_ORDER.contains tag)

/-- `select_metrics_from_tags` from `metric_registry.py`.  An absent
`explicit_metrics` argument is the empty list (Python truthiness of
`None`/`[]` coincide here). -/
def select_metrics_from_tags (tags : List String) (explicit_metrics : List String) :
    List String :=
  if explicit_metrics ≠ [] then orderedMetrics explicit_metrics
  else
    let normalized_tags := tags.map normalize_metric_name
    let base := layerBase normalized_tags
    let metric_tags := tagMetricTags normalized_tags
    let selected :=
      if metric_tags ≠ [] then base.filter (fun m => metric_tags.contains m)
      else base
    orderedMetrics selected

/-! ### Data model (`models.py`)

Only the fields the embedded code reads are carried.  Floats are `ℚ`. -/

/-- `ThresholdsConfig` from `models.py` (defaults from the source). -/
structure ThresholdsConfig where
  contextual_precision : ℚ := 70/100
  contextual_recall : ℚ := 70/100
  contextual_relevancy : ℚ := 70/100
  answer_relevancy : ℚ := 75/100
  faithfulness : ℚ := 75/100
  completeness : ℚ := 70/100
  deriving Repr, DecidableEq

/-- The attribute names of `ThresholdsConfig`: `hasattr(thresholds, name)`
holds of a canonical metric name exactly when the name is one of these six
fields. -/
def thresholdAttrNames : List String :=
  ["contextual_precision", "contextual_recall", "contextual_relevancy",
   "answer_relevancy", "faithfulness", "completeness"]

/-- `getattr(thresholds, name)` for the six declared fields; `none` models
an `AttributeError`. -/
def thresholdAttr (t : ThresholdsConfig) (name : String) : Option ℚ :=
  if name = "contextual_precision" then some t.contextual_precision
  else if name = "contextual_recall" then some t.contextual_recall
  else if name = "contextual_relevancy" then some t.contextual_relevancy
  else if name = "answer_relevancy" then some t.answer_relevancy
  else if name = "faithfulness" then some t.faithfulness
  else if name = "completeness" then some t.completeness
  else none

/-- `EvaluationConfig` from `models.py`, restricted to the fields the
embedded evaluator reads (defaults from the source).  The mapping mode is
kept as a string, mirroring the `Literal["all","positional","row"]`
comparisons of the source. -/
structure EvaluationConfig where
  max_retrieval_context_chunks : Int := 2
  max_retrieval_context_chars_per_chunk : Int := 700
  cache_ask_responses : Bool := true
  fresh_session_per_question : Bool := false
  disable_context_trimming : Bool := false
  metric_question_mapping_mode : String := "all"
  deriving Repr, DecidableEq

/-- `AppConfig` from `models.py`, restricted to the components the
embedded evaluator reads. -/
structure AppConfig where
  thresholds : ThresholdsConfig := {}
  evaluation : EvaluationConfig := {}
  deriving Repr, DecidableEq

/-- A value of a row's `additional_metadata` mapping: the source treats a
`list` value and any scalar (stringified) value differently. -/
inductive MetaVal where
  | str (s : String)
  | list (xs : List String)
  deriving Repr, DecidableEq

/-- `DatasetRow` from `models.py`; `additional_metadata` is a dict in
insertion order. -/
structure DatasetRow where
  id : String
  question : String
  expected_answer : Option String := none
  category : Option String := none
  source_reference : Option String := none
  additional_metadata : List (String × MetaVal) := []
  deriving Repr, DecidableEq

/-- `MetricResult` from `models.py`. -/
structure MetricResult where
  metric_name : String
  threshold : ℚ
  score : Option ℚ := none
  passed : Option Bool := none
  reason : Option String := none
  error : Option String := none
  evaluation_model : Option String := none
  deriving Repr, DecidableEq

/-- The backend's `/ask` response after the evaluator's coercions
(`answer` stringified with missing defaulting to `""`,
`retrieval_context` a list of stringified chunks with missing/null
defaulting to `[]`). -/
structure AskResp where
  answer : String
  retrieval_context : List String
  deriving Repr, DecidableEq

/-- `QuestionEvalResult` from `models.py`; `raw_request` is the
`{"session_id":…, "question":…}` payload. -/
structure QuestionEvalResult where
  question_id : String
  question : String
  expected_answer : Option String
  actual_answer : String
  retrieval_context : List String
  category : Option String
  source_reference : Option String
  metrics : List MetricResult
  raw_request : String × String
  raw_response : AskResp
  deriving Repr, DecidableEq

/-- `MetricAggregate` from `models.py`. -/
structure MetricAggregate where
  metric_name : String
  threshold : ℚ
  count : Nat
  scored_count : Nat
  pass_count : Nat
  fail_count : Nat
  pass_rate : ℚ
  avg_score : Option ℚ := none
  min_score : Option ℚ := none
  max_score : Option ℚ := none
  std_dev : Option ℚ := none
  p50 : Option ℚ := none
  p90 : Option ℚ := none
  score_distribution : List ℚ := []
  deriving Repr, DecidableEq

/-- `RunResult` from `models.py`. -/
structure RunResult where
  run_id : String
  timestamp : String
  feature : String
  scenario : String
  tags : List String
  selected_metrics : List String
  dataset_size : Nat
  question_results : List QuestionEvalResult
  metric_aggregates : List MetricAggregate
  deriving Repr, DecidableEq

/-- `RunIndexEntry` from `models.py`. -/
structure RunIndexEntry where
  run_id : String
  timestamp : String
  path : String
  feature : String
  scenario : String
  deriving Repr, DecidableEq

/-- `TrendPoint` from `models.py`. -/
structure TrendPoint where
  run_id : String
  timestamp : String
  avg_score : Option ℚ
  pass_rate : Option ℚ
  threshold : Option ℚ
  deriving Repr, DecidableEq

/-- `MetricTrend` from `models.py`. -/
structure MetricTrend where
  metric_name : String
  points : List TrendPoint
  deriving Repr, DecidableEq

/-- `TrendSummary` from `models.py`. -/
structure TrendSummary where
  generated_at : String
  keep_last_n : Nat
  metrics : List MetricTrend
  deriving Repr, DecidableEq

/-- `metric_threshold` from `metric_registry.py`:
`float(getattr(config.thresholds, normalize_metric_name(name)))`; `none`
models the `AttributeError` for a name that is not a threshold field. -/
def metric_threshold (name : String) (config : AppConfig) : Option ℚ :=
  thresholdAttr config.thresholds (normalize_metric_name name)

/-! ### Evaluation runner (`evaluator.py`)

External collaborators (the deepeval metric objects, the HTTP backend,
`uuid4`/`datetime` and `math.sqrt` inside `statistics.pstdev`) are
supplied as oracles in an `EvalEnv`. -/

/-- `_percentile` from `evaluator.py`: nearest-rank on the ascending sort
with index `min(n-1, max(0, ceil(pct/100*n)-1))`.  Python `sorted` is
modelled by `List.insertionSort (· ≤ ·)` (stable ascending sort). -/
def _percentile (values : List ℚ) (pct : ℚ) : ℚ :=
  if values = [] then 0
  else
    let ordered := values.insertionSort (fun a b => a ≤ b)
    let n : Int := ordered.length
    let idx := min (n - 1) (max 0 (⌈pct / 100 * (n : ℚ)⌉ - 1))
    ordered.getD idx.toNat 0

/-- `EvaluationRunner._trim_retrieval_context` from `evaluator.py`.  The
chunks reach this function already stringified (`str(chunk)`). -/
def _trim_retrieval_context (config : AppConfig) (retrieval_context : List String) :
    List String :=
  if config.evaluation.disable_context_trimming then retrieval_context
  else
    let chunks_limit := max 1 config.evaluation.max_retrieval_context_chunks
    let chars_limit := max 100 config.evaluation.max_retrieval_context_chars_per_chunk
    (retrieval_context.take chunks_limit.toNat).map (fun text => pyTake chars_limit.toNat text)

/-- The `key_candidates` set of `_extract_metrics_from_row`. -/
def metricKeyCandidates : List String :=
  ["metric", "metrics", "metric_name", "metric_names",
   "target_metric", "target_metrics"]

/-- `EvaluationRunner._extract_metrics_from_row` from `evaluator.py`.
`hasattr(self.config.thresholds, canonical)` is modelled by
`thresholdAttr … |>.isSome`, i.e. membership among the six declared
threshold fields (the only attributes a canonicalized metric name can
name). -/
def _extract_metrics_from_row (config : AppConfig) (row : DatasetRow) : List String :=
  if row.additional_metadata = [] then []
  else
    let raw_value :=
      (row.additional_metadata.find?
        (fun kv => metricKeyCandidates.contains (pyLower (pyStrip kv.1)))).map (·.2)
    match raw_value with
    | none => []
    | some v =>
      let parts :=
        match v with
        | MetaVal.list xs => xs.map pyStrip
        | MetaVal.str s => (pySplitComma s).map pyStrip
      parts.foldl
        (fun mapped part =>
          if part = "" then mapped
          else
            let canonical := normalize_metric_name part
            if (thresholdAttr config.thresholds canonical).isSome then
              (if mapped.contains canonical then mapped else mapped ++ [canonical])
            else mapped)
        []

/-- `EvaluationRunner._resolve_row_metrics` from `evaluator.py`.  In the
positional branch every caller passes `row_index < total_rows`, so the
Python indexing `selected_metrics[row_index]` is in range; it is modelled
with `getD`. -/
def _resolve_row_metrics (config : AppConfig) (row : DatasetRow)
    (selected_metrics : List String) (row_index : Nat) (total_rows : Nat) :
    List String :=
  let mode := config.evaluation.metric_question_mapping_mode
  let mapped_metrics := if mode = "row" then _extract_metrics_from_row config row else []
  if mode = "row" ∧ mapped_metrics ≠ [] then mapped_metrics
  else if mode = "positional" ∧ total_rows = selected_metrics.length then
    [selected_metrics.getD row_index ""]
  else selected_metrics

/-- The deepeval `LLMTestCase` as assembled by the evaluator. -/
structure TestCase where
  input : String
  actual_output : String
  expected_output : String
  retrieval_context : List String
  deriving Repr, DecidableEq

/-- Observable behaviour of one external metric object's `measure` call:
either it raises (`raises = some msg`), or the attributes
`score`/`success`/`reason`/`error` read afterwards. `evaluation_model` is
readable in both cases. -/
structure MetricOutcome where
  raises : Option String := none
  score : Option ℚ := none
  success : Option Bool := none
  reason : Option String := none
  error : Option String := none
  evaluation_model : Option String := none
  deriving Repr, DecidableEq

/-- Oracles for the external collaborators of `evaluate_dataset`:
`sqrtFn` for the square root inside `statistics.pstdev`, `upload` for
`client.upload_document` (document path ↦ fresh session id), `ask` for
`client.ask_question` (session id, question ↦ coerced response), `scorer`
for the metric built by `build_metric` (canonical name, test case ↦
measured outcome), and the generated `run_id`/`timestamp`. -/
structure EvalEnv where
  sqrtFn : ℚ → ℚ
  upload : String → String
  ask : String → String → AskResp
  scorer : String → TestCase → MetricOutcome
  run_id : String
  timestamp : String

/-- The body of the per-metric `try` block of `evaluate_dataset`
(lines 162-191): measure, read attributes, derive `passed` from the
threshold when the scorer gives no `success`; on an exception record
`score=None`, `passed=False`, `error=<message>`. -/
def mkMetricResult (env : EvalEnv) (canonical_name : String) (threshold : ℚ)
    (tc : TestCase) : MetricResult :=
  let out := env.scorer canonical_name tc
  match out.raises with
  | some msg =>
    { metric_name := canonical_name, threshold := threshold, score := none,
      passed := some false, reason := none, error := some msg,
      evaluation_model := out.evaluation_model }
  | none =>
    let passed : Option Bool :=
      match out.success with
      | some b => some b
      | none => out.score.map (fun s => decide (s ≥ threshold))
    { metric_name := canonical_name, threshold := threshold, score := out.score,
      passed := passed, reason := out.reason, error := out.error,
      evaluation_model := out.evaluation_model }

/-- One iteration of the metric loop of `evaluate_dataset` (lines
157-191): canonicalize, look up the threshold (`AttributeError` when the
name is not a threshold field), build the metric (`ValueError` for a name
outside the six supported ones), then score.  The first two failures
happen outside the `try` block and abort the run. -/
def scoreMetric (env : EvalEnv) (config : AppConfig) (tc : TestCase)
    (metric_name : String) : Except String MetricResult :=
  let canonical_name := normalize_metric_name metric_name
  match metric_threshold canonical_name config with
  | none => Except.error ("AttributeError: " ++ canonical_name)
  | some threshold =>
    if METRIC_ORDER.contains canonical_name then
      Except.ok (mkMetricResult env canonical_name threshold tc)
    else Except.error ("Unsupported metric: " ++ canonical_name)

/-- The metric loop of `evaluate_dataset` over the resolved row metrics. -/
def scoreRowMetrics (env : EvalEnv) (config : AppConfig) (tc : TestCase) :
    List String → Except String (List MetricResult)
  | [] => Except.ok []
  | m :: rest => do
    let r ← scoreMetric env config tc m
    let rs ← scoreRowMetrics env config tc rest
    Except.ok (r :: rs)

/-- Per-row session resolution of `evaluate_dataset` (lines 124-128): a
fresh session is uploaded from the first tracked document when
`fresh_session_per_question` is set and documents exist; otherwise the
run-level session id is used. -/
def _row_session (env : EvalEnv) (config : AppConfig)
    (uploaded_documents : List String) (session_id : Option String) :
    Option String :=
  if config.evaluation.fresh_session_per_question ∧ uploaded_documents ≠ [] then
    some (env.upload (uploaded_documents.headD ""))
  else session_id

/-- The `ValueError` message of `evaluate_dataset` line 130. -/
def missingSessionMsg : String :=
  "Missing session_id for evaluation. Upload documents before running metrics."

/-- One iteration of the row loop of `evaluate_dataset` (lines 123-206).
A falsy session id (`None` or `""`) raises. -/
def evalRow (env : EvalEnv) (config : AppConfig) (selected_metrics : List String)
    (total_rows : Nat) (uploaded_documents : List String)
    (session_id : Option String) (row_index : Nat) (row : DatasetRow) :
    Except String QuestionEvalResult :=
  match _row_session env config uploaded_documents session_id with
  | none => Except.error missingSessionMsg
  | some sv =>
    if sv = "" then Except.error missingSessionMsg
    else
      let raw_response := env.ask sv row.question
      let answer := raw_response.answer
      let trimmed := _trim_retrieval_context config raw_response.retrieval_context
      let expected_output := row.expected_answer.getD answer
      let tc : TestCase := ⟨row.question, answer, expected_output, trimmed⟩
      let row_metrics := _resolve_row_metrics config row selected_metrics row_index total_rows
      match scoreRowMetrics env config tc row_metrics with
      | Except.error e => Except.error e
      | Except.ok metric_results =>
        Except.ok ⟨row.id, row.question, row.expected_answer, answer, trimmed,
                   row.category, row.source_reference, metric_results,
                   (sv, row.question), raw_response⟩

/-- The enumerated row loop of `evaluate_dataset`. -/
def evalRows (env : EvalEnv) (config : AppConfig) (selected_metrics : List String)
    (total_rows : Nat) (uploaded_documents : List String)
    (session_id : Option String) :
    Nat → List DatasetRow → Except String (List QuestionEvalResult)
  | _, [] => Except.ok []
  | row_index, row :: rest => do
    let qr ← evalRow env config selected_metrics total_rows uploaded_documents
      session_id row_index row
    let qrs ← evalRows env config selected_metrics total_rows uploaded_documents
      session_id (row_index + 1) rest
    Except.ok (qr :: qrs)

/-- `statistics.pvariance`: population variance, dividing by `n`. -/
def pvariance (xs : List ℚ) : ℚ :=
  let mu := xs.sum / (xs.length : ℚ)
  (xs.map (fun x => (x - mu) ^ 2)).sum / (xs.length : ℚ)

/-- Python `min` over a non-empty list. -/
def listMin : List ℚ → Option ℚ
  | [] => none
  | x :: xs => some (xs.foldl min x)

/-- Python `max` over a non-empty list. -/
def listMax : List ℚ → Option ℚ
  | [] => none
  | x :: xs => some (xs.foldl max x)

/-- The loop body of `EvaluationRunner._aggregate` (lines 229-266) for
one canonical metric name and its collected metric results.
`statistics.pstdev` is `sqrtFn` applied to the population variance. -/
def aggregateOne (sqrtFn : ℚ → ℚ) (canonical_name : String) (threshold : ℚ)
    (metric_results : List MetricResult) : MetricAggregate :=
  let scores := metric_results.filterMap (fun m => m.score)
  let pass_count := (metric_results.filter (fun m => m.passed = some true)).length
  let fail_count := (metric_results.filter (fun m => m.passed = some false)).length
  let count := metric_results.length
  let pass_rate : ℚ := if count ≠ 0 then (pass_count : ℚ) / (count : ℚ) * 100 else 0
  let avg_score := if scores ≠ [] then some (scores.sum / (scores.length : ℚ)) else none
  let std_dev :=
    if scores.length > 1 then some (sqrtFn (pvariance scores))
    else if scores.length = 1 then some 0 else none
  let p50 := if scores ≠ [] then some (_percentile scores 50) else none
  let p90 := if scores ≠ [] then some (_percentile scores 90) else none
  { metric_name := canonical_name, threshold := threshold, count := count,
    scored_count := scores.length, pass_count := pass_count,
    fail_count := fail_count, pass_rate := pass_rate, avg_score := avg_score,
    min_score := listMin scores, max_score := listMax scores,
    std_dev := std_dev, p50 := p50, p90 := p90, score_distribution := scores }

/-- `EvaluationRunner._aggregate` from `evaluator.py`: one aggregate per
selected metric, over the metric results of all questions whose
`metric_name` equals the canonical name. -/
def _aggregate (sqrtFn : ℚ → ℚ) (config : AppConfig)
    (question_results : List QuestionEvalResult) :
    List String → Except String (List MetricAggregate)
  | [] => Except.ok []
  | metric_name :: rest =>
    let canonical_name := normalize_metric_name metric_name
    match metric_threshold canonical_name config with
    | none => Except.error ("AttributeError: " ++ canonical_name)
    | some threshold =>
      let metric_results :=
        ((question_results.map (fun q => q.metrics)).flatten).filter
          (fun m => m.metric_name = canonical_name)
      match _aggregate sqrtFn config question_results rest with
      | Except.error e => Except.error e
      | Except.ok aggs =>
        Except.ok (aggregateOne sqrtFn canonical_name threshold metric_results :: aggs)

/-- `EvaluationRunner.evaluate_dataset` from `evaluator.py`. -/
def evaluate_dataset (env : EvalEnv) (config : AppConfig)
    (dataset_rows : List DatasetRow) (selected_metrics : List String)
    (session_id : Option String) (feature scenario : String)
    (tags : List String) (uploaded_documents : List String) :
    Except String RunResult := do
  let question_results ← evalRows env config selected_metrics dataset_rows.length
    uploaded_documents session_id 0 dataset_rows
  let aggregates ← _aggregate env.sqrtFn config question_results selected_metrics
  Except.ok ⟨env.run_id, env.timestamp, feature, scenario, tags, selected_metrics,
             dataset_rows.length, question_results, aggregates⟩

/-! ### Results store (`results_store.py`)

The filesystem under `base_dir` is modelled explicitly: `files` maps a
relative path to `some run` (a file whose JSON parses/validates to that
run), or to `none` (a file that exists but whose contents are
unparsable); an absent path is a missing file.  `json.loads` /
`model_validate` failures are `Except.error` (the exception propagates in
the source). -/

/-- The run-file map of a store's `base_dir`. -/
abbrev RunFiles : Type := List (String × Option RunResult)

/-- `run_file.exists()` + read + parse, as one lookup: `none` = missing
file, `some none` = present but unparsable, `some (some r)` = parses. -/
def lookupFile (files : RunFiles) (path : String) : Option (Option RunResult) :=
  List.lookup path files

/-- `write_text` of a parsable run file (overwrites). -/
def setFile (files : RunFiles) (path : String) (content : Option RunResult) : RunFiles :=
  (path, content) :: (files.filter (fun kv => kv.1 ≠ path))

/-- The mutable state of a `ResultsStore`: run files, the bounded
"recent" index (`index.json`, newest first) and the unbounded
"current session" index (`current_index.json`). -/
structure StoreState where
  files : RunFiles
  index : List RunIndexEntry
  current_index : List RunIndexEntry
  deriving Repr, DecidableEq

/-- `metric_map.setdefault(name, []).append(pt)` over an
insertion-ordered dict. -/
def appendPoint (metric_map : List (String × List TrendPoint)) (name : String)
    (pt : TrendPoint) : List (String × List TrendPoint) :=
  if (List.lookup name metric_map).isSome then
    metric_map.map (fun kv => if kv.1 = name then (kv.1, kv.2 ++ [pt]) else kv)
  else metric_map ++ [(name, [pt])]

/-- The inner aggregate loop of `_build_trends` (lines 122-131). -/
def addRunPoints (metric_map : List (String × List TrendPoint)) (run : RunResult) :
    List (String × List TrendPoint) :=
  run.metric_aggregates.foldl
    (fun mm agg =>
      appendPoint mm agg.metric_name
        ⟨run.run_id, run.timestamp, agg.avg_score, some agg.pass_rate, some agg.threshold⟩)
    metric_map

/-- The entry loop of `_build_trends` (lines 115-131), already given the
entries oldest-to-newest: a missing run file is skipped (`continue`); an
unparsable one raises out of `json.loads`/`model_validate`. -/
def buildTrendsFold (files : RunFiles) :
    List RunIndexEntry → List (String × List TrendPoint) →
    Except String (List (String × List TrendPoint))
  | [], mm => Except.ok mm
  | e :: rest, mm =>
    match lookupFile files e.path with
    | none => buildTrendsFold files rest mm
    | some none => Except.error ("JSONDecodeError: " ++ e.path)
    | some (some run) => buildTrendsFold files rest (addRunPoints mm run)

/-- `ResultsStore._build_trends` from `results_store.py`: iterate the
given entries oldest-to-newest (`reversed(entries)`), group points per
metric, and sort the trends by metric name (`sorted(metric_map.items())`;
keys are unique). -/
def _build_trends (generated_at : String) (keep_last_n : Nat) (files : RunFiles)
    (entries : List RunIndexEntry) : Except String TrendSummary :=
  match buildTrendsFold files entries.reverse [] with
  | Except.error e => Except.error e
  | Except.ok mm =>
    let trends := (mm.insertionSort (fun a b => ¬ (b.1 < a.1))).map
      (fun kv => MetricTrend.mk kv.1 kv.2)
    Except.ok ⟨generated_at, keep_last_n, trends⟩

/-- The relative path `runs/<run_id>/results.json` of a saved run. -/
def runFilePath (run_id : String) : String := "runs/" ++ run_id ++ "/results.json"

/-- The `RunIndexEntry` built by `save_run` (lines 32-38). -/
def newIndexEntry (rr : RunResult) : RunIndexEntry :=
  ⟨rr.run_id, rr.timestamp, runFilePath rr.run_id, rr.feature, rr.scenario⟩

/-- `ResultsStore.save_run` from `results_store.py`: write the run file,
prepend an index entry to the recent index and truncate it to
`keep_last_n` (`entries[: keep_last_n]`), prepend the same entry to the
current-session index (no truncation), then rebuild the trend summary
from the recent index.  (The write of `trends/last5.json` carries no
state the claims read and is returned as the summary.) -/
def save_run (generated_at : String) (keep_last_n : Nat) (st : StoreState)
    (run_result : RunResult) : Except String (StoreState × TrendSummary) :=
  let files := setFile st.files (runFilePath run_result.run_id) (some run_result)
  let entries := (newIndexEntry run_result :: st.index).take keep_last_n
  let current_entries := newIndexEntry run_result :: st.current_index
  match _build_trends generated_at keep_last_n files entries with
  | Except.error e => Except.error e
  | Except.ok ts =>
    Except.ok (⟨files, entries, current_entries⟩, ts)

/-- The shared body of `load_recent_run_results` /
`load_current_session_run_results`: follow the entries, skip entries
whose backing file is missing, raise on an unparsable file. -/
def loadFromEntries (files : RunFiles) :
    List RunIndexEntry → Except String (List RunResult)
  | [] => Except.ok []
  | e :: rest =>
    match lookupFile files e.path with
    | none => loadFromEntries files rest
    | some none => Except.error ("JSONDecodeError: " ++ e.path)
    | some (some r) =>
      match loadFromEntries files rest with
      | Except.error x => Except.error x
      | Except.ok rs => Except.ok (r :: rs)

/-- `ResultsStore.load_recent_run_results`. -/
def load_recent_run_results (st : StoreState) : Except String (List RunResult) :=
  loadFromEntries st.files st.index

/-- `ResultsStore.load_current_session_run_results`. -/
def load_current_session_run_results (st : StoreState) : Except String (List RunResult) :=
  loadFromEntries st.files st.current_index

/-- `ResultsStore.reset_current_session`: clears only the current-session
index. -/
def reset_current_session (st : StoreState) : StoreState :=
  { st with current_index := [] }

/-! ### Backend ask-cache (`backend_client.py`)

`ask_question` with `use_cache=True` is modelled operationally so that
object identity and mutation are observable: payload objects live on a
heap of addresses, the in-process `_ask_cache` maps a
`(session_id, question.strip())` key to the address of its cached deep
copy, and callers may mutate only objects whose addresses were returned
to them.  `copy.deepcopy` is allocation of a fresh address holding the
same payload value. -/

/-- Heap/cache/returned-object state of one `BackendClient`. -/
structure CacheState (P : Type) where
  heap : List P
  cache : List ((String × String) × Nat)
  returned : List Nat

/-- A fresh `BackendClient`'s cache state (`self._ask_cache = {}`). -/
def initCacheState (P : Type) : CacheState P := ⟨[], [], []⟩

/-- `BackendClient.ask_question` with `use_cache=True` (lines 78-98),
returning the address of the response object handed to the caller.  On a
hit the caller receives a fresh deep copy of the cached object; on a miss
the fresh HTTP response object is returned and a deep copy of it is
stored in the cache. -/
def ask_question {P : Type} [Inhabited P] (backend : String → String → P)
    (st : CacheState P) (session_id question : String) : Nat × CacheState P :=
  let cache_key := (session_id, pyStrip question)
  match List.lookup cache_key st.cache with
  | some c =>
    let addr := st.heap.length
    (addr, ⟨st.heap ++ [st.heap.getD c default], st.cache, st.returned ++ [addr]⟩)
  | none =>
    let response_payload := backend session_id question
    let addrO := st.heap.length
    (addrO, ⟨st.heap ++ [response_payload, response_payload],
             st.cache ++ [(cache_key, st.heap.length + 1)],
             st.returned ++ [addrO]⟩)

/-- Caller-side operations: further `ask_question` calls, or a mutation
of the `i`-th response object a caller received. -/
inductive CacheOp (P : Type) where
  | ask (session_id question : String)
  | mutate (i : Nat) (p : P)

/-- Whether an operation is an `ask` (pure of mutations). -/
def CacheOp.isAsk {P : Type} : CacheOp P → Bool
  | .ask _ _ => true
  | .mutate _ _ => false

/-- One caller-side step.  A mutation rewrites the heap cell of a
previously returned object in place (out-of-range indices are no-ops:
callers can only touch objects they were given). -/
def stepCache {P : Type} [Inhabited P] (backend : String → String → P)
    (st : CacheState P) : CacheOp P → CacheState P
  | .ask sid q => (ask_question backend st sid q).2
  | .mutate i p =>
    match st.returned[i]? with
    | some a => { st with heap := st.heap.set a p }
    | none => st

/-- Run a trace of caller-side operations from a given state. -/
def runCache {P : Type} [Inhabited P] (backend : String → String → P)
    (st : CacheState P) (ops : List (CacheOp P)) : CacheState P :=
  ops.foldl (stepCache backend) st

/-- The payload value a caller observes from one `ask_question` call:
the heap cell of the returned address, at return time. -/
def askPayload {P : Type} [Inhabited P] (backend : String → String → P)
    (st : CacheState P) (session_id question : String) : P :=
  let r := ask_question backend st session_id question
  r.2.heap.getD r.1 default

/-! ### Concrete fixtures used by witnesses and counterexamples -/

/-- An `AppConfig` with the source's defaults. -/
def testConfig : AppConfig := {}

/-- Defaults with `metric_question_mapping_mode="row"`. -/
def rowModeConfig : AppConfig :=
  { evaluation := { metric_question_mapping_mode := "row" } }

/-- Defaults with `metric_question_mapping_mode="positional"`. -/
def positionalConfig : AppConfig :=
  { evaluation := { metric_question_mapping_mode := "positional" } }

/-- A fixed backend answer used by the concrete runs. -/
def constResp : AskResp := ⟨"The score is 200.", ["chunk A"]⟩

/-- A scorer outcome: score 0.9, success reported by the scorer. -/
def okOutcome : MetricOutcome := { score := some (9/10), success := some true }

/-- Oracles for concrete runs: every metric scores 0.9 successfully. -/
def testEnv : EvalEnv :=
  { sqrtFn := fun _ => 0, upload := fun _ => "S1",
    ask := fun _ _ => constResp, scorer := fun _ _ => okOutcome,
    run_id := "RUN", timestamp := "T0" }

/-- Oracles where measuring `faithfulness` raises `"boom"` and every
other metric scores 0.9. -/
def raisingEnv : EvalEnv :=
  { testEnv with
    scorer := fun name _ =>
      if name = "faithfulness" then { raises := some "boom" } else okOutcome }

/-- A plain dataset row with no metadata. -/
def plainRow (i q : String) : DatasetRow := { id := i, question := q }

/-- A row whose metadata names `faithfulness, contextual_precision`
(in that, non-canonical, order). -/
def rowMetaRow : DatasetRow :=
  { id := "Q1", question := "What is the score?",
    additional_metadata := [("metric", MetaVal.str "faithfulness, contextual_precision")] }

/-- A row whose metadata names only `faithfulness`. -/
def c10Row : DatasetRow :=
  { id := "Q1", question := "What is the score?",
    additional_metadata := [("metric", MetaVal.str "faithfulness")] }

/-- A question result carrying one `faithfulness` metric result that is
marked passed but has no numeric score (the scorer reported
`success=True` with a non-numeric `score`; `evaluate_dataset` lines
164-174 record exactly this shape). -/
def passedUnscoredQR : QuestionEvalResult :=
  ⟨"Q1", "What is the score?", none, "a", [], none, none,
   [{ metric_name := "faithfulness", threshold := 3/4, score := none,
      passed := some true }],
   ("S1", "What is the score?"), ⟨"a", []⟩⟩

/-- A minimal saved run (no questions, no aggregates) for the
results-store scenario. -/
def miniRun (rid : String) : RunResult :=
  ⟨rid, "T_" ++ rid, "feat", "scen", ["layer1"], ["contextual_precision"], 0, [], []⟩

/-- A fresh results store (empty directory, both indices empty). -/
def initStore : StoreState := ⟨[], [], []⟩

/-- The index entry of `miniRun rid`. -/
def miniEntry (rid : String) : RunIndexEntry := newIndexEntry (miniRun rid)

/-- The run file written for `miniRun rid`. -/
def miniFile (rid : String) : String × Option RunResult :=
  (runFilePath rid, some (miniRun rid))

/-- Store state after saving `R1` with `keep_last_n = 2`. -/
def c5state1 : StoreState :=
  ⟨[miniFile "R1"], [miniEntry "R1"], [miniEntry "R1"]⟩

/-- Store state after then saving `R2`. -/
def c5state2 : StoreState :=
  ⟨[miniFile "R2", miniFile "R1"],
   [miniEntry "R2", miniEntry "R1"],
   [miniEntry "R2", miniEntry "R1"]⟩

/-- Store state after then saving `R3`: the recent index is truncated to
2 entries while the current-session index keeps all 3. -/
def c5state3 : StoreState :=
  ⟨[miniFile "R3", miniFile "R2", miniFile "R1"],
   [miniEntry "R3", miniEntry "R2"],
   [miniEntry "R3", miniEntry "R2", miniEntry "R1"]⟩

/-- A placeholder `QuestionEvalResult` for `getD` indexing. -/
def dummyQR : QuestionEvalResult :=
  ⟨"", "", none, "", [], none, none, [], ("", ""), ⟨"", []⟩⟩

/-! ## Theorems -/

/-! ### Shared helper lemmas -/

/-- Normalization fixes the six canonical metric names. -/
theorem normalize_canonical (c : String) (h : c ∈ METRIC_ORDER) :
    normalize_metric_name c = c := by
  simp only [METRIC_ORDER, List.mem_cons, List.mem_singleton, List.not_mem_nil, or_false] at h
  rcases h with h | h | h | h | h | h <;> subst h <;> decide

/-- The six threshold attribute names are exactly the canonical metric
names. -/
theorem thresholdAttrNames_eq : thresholdAttrNames = METRIC_ORDER := by decide

/-- `thresholdAttr` succeeds exactly on the six declared fields. -/
theorem thresholdAttr_isSome (t : ThresholdsConfig) (name : String) :
    (thresholdAttr t name).isSome = true ↔ name ∈ thresholdAttrNames := by
  unfold thresholdAttr thresholdAttrNames
  split_ifs with h1 h2 h3 h4 h5 h6 <;> simp_all

/-! ### C1 -/

/-- C1 counterexample.  For the tag set `{"layer1", "faithfulness"}` the
layer-derived base set is the three contextual metrics, the tag-named
metric subset is `{"faithfulness"}` (disjoint from the base set), and no
explicit metrics are given — yet `select_metrics_from_tags` returns the
empty list, not the full base set claimed by the spec. -/
theorem c1_counterexample :
    select_metrics_from_tags ["layer1", "faithfulness"] [] = [] ∧
    layerBase (["layer1", "faithfulness"].map normalize_metric_name) =
      ["contextual_precision", "contextual_recall", "contextual_relevancy"] ∧
    tagMetricTags (["layer1", "faithfulness"].map normalize_metric_name) =
      ["faithfulness"] ∧
    ([] : List String) ≠
      ["contextual_precision", "contextual_recall", "contextual_relevancy"] := by
  refine ⟨by decide, by decide, by decide, by decide⟩

/-- C1 (amended): for every tag set that names specific metrics whose
intersection with the layer-derived base set is empty, and with no
explicit metrics, `select_metrics_from_tags` returns the empty list — the
fallback to the base set happens only when the tag set names no metrics
at all. -/
theorem c1_empty_intersection_returns_empty (tags : List String)
    (hmt : tagMetricTags (tags.map normalize_metric_name) ≠ [])
    (hdisj : ∀ m ∈ layerBase (tags.map normalize_metric_name),
      m ∉ tagMetricTags (tags.map normalize_metric_name)) :
    select_metrics_from_tags tags [] = [] := by
  have hfilter :
      (layerBase (tags.map normalize_metric_name)).filter
        (fun m => (tagMetricTags (tags.map normalize_metric_name)).contains m) = [] := by
    apply List.filter_eq_nil_iff.mpr
    intro m hm
    simpa using hdisj m hm
  have hsel : select_metrics_from_tags tags [] =
      orderedMetrics ((layerBase (tags.map normalize_metric_name)).filter
        (fun m => (tagMetricTags (tags.map normalize_metric_name)).contains m)) := by
    unfold select_metrics_from_tags
    simp [hmt]
  rw [hsel, hfilter]
  decide

/-- C1 witness: the amended theorem applied to the concrete tag set
`["layer1", "faithfulness"]`. -/
theorem c1_witness : select_metrics_from_tags ["layer1", "faithfulness"] [] = [] :=
  c1_empty_intersection_returns_empty ["layer1", "faithfulness"]
    (by decide) (by decide)

/-! ### C2 -/

/-- C2: in mapping mode `positional`, when the dataset size equals the
number of selected metrics, row `i` is resolved to exactly
`[selected_metrics[i]]`; when the sizes differ, every row is resolved to
all selected metrics. -/
theorem c2_positional_mapping (config : AppConfig) (row : DatasetRow)
    (selected_metrics : List String) (row_index total_rows : Nat)
    (hmode : config.evaluation.metric_question_mapping_mode = "positional") :
    (total_rows = selected_metrics.length →
      _resolve_row_metrics config row selected_metrics row_index total_rows =
        [selected_metrics.getD row_index ""]) ∧
    (total_rows ≠ selected_metrics.length →
      _resolve_row_metrics config row selected_metrics row_index total_rows =
        selected_metrics) := by
  unfold _resolve_row_metrics
  rw [hmode]
  constructor
  · intro heq
    simp [heq]
  · intro hne
    simp [hne]

/-- C2 witness: a two-row dataset with two selected metrics resolves row
1 to the second metric alone; a three-row dataset with the same metrics
falls back to both for row 1. -/
theorem c2_witness :
    _resolve_row_metrics positionalConfig (plainRow "Q1" "q")
        ["faithfulness", "completeness"] 1 2 = ["completeness"] ∧
    _resolve_row_metrics positionalConfig (plainRow "Q1" "q")
        ["faithfulness", "completeness"] 1 3 = ["faithfulness", "completeness"] := by
  constructor
  · exact ((c2_positional_mapping positionalConfig (plainRow "Q1" "q")
      ["faithfulness", "completeness"] 1 2 (by decide)).1 (by decide))
  · exact ((c2_positional_mapping positionalConfig (plainRow "Q1" "q")
      ["faithfulness", "completeness"] 1 3 (by decide)).2 (by decide))

/-! ### C9 -/

/-- C9: with trimming enabled, the trimmed context keeps
`min(len(context), max(1, max_retrieval_context_chunks))` chunks, each
truncated to at most `max(100, max_retrieval_context_chars_per_chunk)`
characters; in particular a chunk limit below 1 acts as 1, a character
limit below 100 acts as 100, and a non-empty context never trims to an
empty list. -/
theorem c9_trimming_bounds (config : AppConfig) (retrieval_context : List String)
    (henabled : config.evaluation.disable_context_trimming = false) :
    (_trim_retrieval_context config retrieval_context).length =
      min retrieval_context.length
        (max 1 config.evaluation.max_retrieval_context_chunks).toNat ∧
    (∀ s ∈ _trim_retrieval_context config retrieval_context,
      pyLen s ≤ (max 100 config.evaluation.max_retrieval_context_chars_per_chunk).toNat) ∧
    (retrieval_context ≠ [] → _trim_retrieval_context config retrieval_context ≠ []) := by
  unfold _trim_retrieval_context
  rw [henabled]
  simp only [Bool.false_eq_true, if_false]
  refine ⟨?_, ?_, ?_⟩
  · simp [List.length_take, Nat.min_comm]
  · intro s hs
    simp only [List.mem_map] at hs
    obtain ⟨t, _, ht⟩ := hs
    subst ht
    exact List.length_take_le _ _
  · intro hne hcontra
    have h1 : (1 : Int) ≤ 1 ⊔ config.evaluation.max_retrieval_context_chunks :=
      le_max_left _ _
    have h2 : 1 ≤ (1 ⊔ config.evaluation.max_retrieval_context_chunks).toNat := by
      have h3 := Int.toNat_le_toNat h1
      simp only [Int.toNat_one] at h3
      exact h3
    have htake := List.map_eq_nil_iff.mp hcontra
    have hlen := congrArg List.length htake
    simp only [List.length_take, List.length_nil] at hlen
    have hl : retrieval_context.length ≠ 0 := by
      simpa [List.length_eq_zero] using hne
    omega

/-! ### C3 -/

/-- A canonical metric name always has a threshold attribute. -/
theorem thresholdAttr_of_canonical (t : ThresholdsConfig) (c : String)
    (h : c ∈ METRIC_ORDER) :
    thresholdAttr t c = some ((thresholdAttr t c).getD 0) := by
  have hs : (thresholdAttr t c).isSome = true := by
    rw [thresholdAttr_isSome, thresholdAttrNames_eq]
    exact h
  cases ho : thresholdAttr t c with
  | none => rw [ho] at hs; cases hs
  | some v => simp

/-- `_percentile` of a singleton at the 50th percentile. -/
theorem percentile_single_50 (x : ℚ) : _percentile [x] 50 = x := by
  have hc : (⌈(50 : ℚ) / 100 * ((1 : Nat) : ℚ)⌉ : Int) = 1 := by
    with_unfolding_all decide
  simp [_percentile, List.insertionSort, List.orderedInsert, hc]

/-- `_percentile` of a singleton at the 90th percentile. -/
theorem percentile_single_90 (x : ℚ) : _percentile [x] 90 = x := by
  have hc : (⌈(90 : ℚ) / 100 * ((1 : Nat) : ℚ)⌉ : Int) = 1 := by
    with_unfolding_all decide
  simp [_percentile, List.insertionSort, List.orderedInsert, hc]

/-- C3 counterexample.  `_aggregate` applied to one metric result whose
scorer reported `success=True` without a numeric score (`score=None`,
`passed=True` — the shape recorded by `evaluate_dataset` lines 164-178)
yields an aggregate with zero scores (`score_distribution = []`, all of
avg/min/max/p50/p90 `None`) and `pass_rate = 100`, not `0.0` as the claim
states for `n = 0`. -/
theorem c3_counterexample :
    (_aggregate (fun _ => 0) testConfig [passedUnscoredQR] ["faithfulness"]).map
      (fun l => l.map (fun a =>
        (a.score_distribution, a.pass_rate, a.avg_score, a.p50, a.p90)))
    = Except.ok [([], 100, none, none, none)] ∧ (100 : ℚ) ≠ 0 := by
  constructor
  · with_unfolding_all decide
  · with_unfolding_all decide

/-- The `p50` field of the aggregate loop body. -/
theorem aggregateOne_p50 (sqrtFn : ℚ → ℚ) (c : String) (thr : ℚ)
    (ms : List MetricResult) :
    (aggregateOne sqrtFn c thr ms).p50 =
      (if ms.filterMap (fun m => m.score) ≠ [] then
        some (_percentile (ms.filterMap (fun m => m.score)) 50) else none) := rfl

/-- The `p90` field of the aggregate loop body. -/
theorem aggregateOne_p90 (sqrtFn : ℚ → ℚ) (c : String) (thr : ℚ)
    (ms : List MetricResult) :
    (aggregateOne sqrtFn c thr ms).p90 =
      (if ms.filterMap (fun m => m.score) ≠ [] then
        some (_percentile (ms.filterMap (fun m => m.score)) 90) else none) := rfl

/-- The `std_dev` field of the aggregate loop body. -/
theorem aggregateOne_std_dev (sqrtFn : ℚ → ℚ) (c : String) (thr : ℚ)
    (ms : List MetricResult) :
    (aggregateOne sqrtFn c thr ms).std_dev =
      (if (ms.filterMap (fun m => m.score)).length > 1 then
        some (sqrtFn (pvariance (ms.filterMap (fun m => m.score))))
      else if (ms.filterMap (fun m => m.score)).length = 1 then some 0
      else none) := rfl

/-- The `avg_score` field of the aggregate loop body. -/
theorem aggregateOne_avg (sqrtFn : ℚ → ℚ) (c : String) (thr : ℚ)
    (ms : List MetricResult) :
    (aggregateOne sqrtFn c thr ms).avg_score =
      (if ms.filterMap (fun m => m.score) ≠ [] then
        some ((ms.filterMap (fun m => m.score)).sum /
          ((ms.filterMap (fun m => m.score)).length : ℚ)) else none) := rfl

/-- The `min_score` field of the aggregate loop body. -/
theorem aggregateOne_min (sqrtFn : ℚ → ℚ) (c : String) (thr : ℚ)
    (ms : List MetricResult) :
    (aggregateOne sqrtFn c thr ms).min_score =
      listMin (ms.filterMap (fun m => m.score)) := rfl

/-- The `max_score` field of the aggregate loop body. -/
theorem aggregateOne_max (sqrtFn : ℚ → ℚ) (c : String) (thr : ℚ)
    (ms : List MetricResult) :
    (aggregateOne sqrtFn c thr ms).max_score =
      listMax (ms.filterMap (fun m => m.score)) := rfl

/-- The `pass_rate` field of the aggregate loop body. -/
theorem aggregateOne_pass_rate (sqrtFn : ℚ → ℚ) (c : String) (thr : ℚ)
    (ms : List MetricResult) :
    (aggregateOne sqrtFn c thr ms).pass_rate =
      (if ms.length ≠ 0 then
        ((ms.filter (fun m => m.passed = some true)).length : ℚ) / (ms.length : ℚ) * 100
      else 0) := rfl

set_option maxRecDepth 4000 in
/-- `_aggregate` over a single selected metric whose canonical name has a
threshold. -/
theorem aggregate_singleton (sqrtFn : ℚ → ℚ) (config : AppConfig)
    (question_results : List QuestionEvalResult) (m : String)
    (hm : normalize_metric_name m ∈ METRIC_ORDER) :
    _aggregate sqrtFn config question_results [m] =
      Except.ok [aggregateOne sqrtFn (normalize_metric_name m)
        ((thresholdAttr config.thresholds (normalize_metric_name m)).getD 0)
        (((question_results.map (fun q => q.metrics)).flatten).filter
          (fun r => r.metric_name = normalize_metric_name m))] := by
  have hcanon : normalize_metric_name (normalize_metric_name m) =
      normalize_metric_name m := normalize_canonical _ hm
  obtain ⟨v, hv⟩ : ∃ v, thresholdAttr config.thresholds (normalize_metric_name m) = some v := by
    rcases ho : thresholdAttr config.thresholds (normalize_metric_name m) with _ | v
    · rw [thresholdAttr_of_canonical _ _ hm] at ho; cases ho
    · exact ⟨v, rfl⟩
  rw [show (thresholdAttr config.thresholds (normalize_metric_name m)).getD 0 = v from by
    rw [hv]; rfl]
  simp only [_aggregate, metric_threshold, hcanon, hv]

/-- C3 (amended): for every selected metric the run-level aggregate is
computed over the metric results bearing its canonical name, with p50/p90
by nearest-rank over the ascending sort at index
`clamp(ceil(p/100*n)-1, 0, n-1)`, std_dev the population standard
deviation (square root of the sum of squared deviations divided by `n`),
`0.0` for exactly one score and `None` for no score; with `n=1` both
percentiles equal the single score; with `n=0` avg/min/max/p50/p90 are
all `None`, while `pass_rate` is `100·pass_count/count` (`0.0` when there
are no metric results at all, and in particular whenever no result is
marked passed — a result can be marked passed with a missing score only
when the scorer reports `success` without a numeric `score`). -/
theorem c3_aggregate_statistics (sqrtFn : ℚ → ℚ) (config : AppConfig)
    (question_results : List QuestionEvalResult) (m : String)
    (canonical : String) (thr : ℚ) (ms : List MetricResult) (scores : List ℚ)
    (hm : normalize_metric_name m ∈ METRIC_ORDER)
    (hc : canonical = normalize_metric_name m)
    (ht : thr = (thresholdAttr config.thresholds canonical).getD 0)
    (hms : ms = ((question_results.map (fun q => q.metrics)).flatten).filter
      (fun r => r.metric_name = canonical))
    (hsc : scores = ms.filterMap (fun r => r.score)) :
    (_aggregate sqrtFn config question_results [m] =
      Except.ok [aggregateOne sqrtFn canonical thr ms]) ∧
    (scores ≠ [] →
      (aggregateOne sqrtFn canonical thr ms).p50 =
        some ((scores.insertionSort (fun a b => a ≤ b)).getD
          (min ((scores.length : Int) - 1)
            (max 0 (⌈(50 : ℚ) / 100 * (scores.length : ℚ)⌉ - 1))).toNat 0) ∧
      (aggregateOne sqrtFn canonical thr ms).p90 =
        some ((scores.insertionSort (fun a b => a ≤ b)).getD
          (min ((scores.length : Int) - 1)
            (max 0 (⌈(90 : ℚ) / 100 * (scores.length : ℚ)⌉ - 1))).toNat 0)) ∧
    (scores.length > 1 →
      (aggregateOne sqrtFn canonical thr ms).std_dev = some (sqrtFn
        ((scores.map (fun x => (x - scores.sum / (scores.length : ℚ)) ^ 2)).sum /
          (scores.length : ℚ)))) ∧
    (∀ x : ℚ, scores = [x] →
      (aggregateOne sqrtFn canonical thr ms).p50 = some x ∧
      (aggregateOne sqrtFn canonical thr ms).p90 = some x ∧
      (aggregateOne sqrtFn canonical thr ms).std_dev = some 0) ∧
    (scores = [] →
      (aggregateOne sqrtFn canonical thr ms).avg_score = none ∧
      (aggregateOne sqrtFn canonical thr ms).min_score = none ∧
      (aggregateOne sqrtFn canonical thr ms).max_score = none ∧
      (aggregateOne sqrtFn canonical thr ms).p50 = none ∧
      (aggregateOne sqrtFn canonical thr ms).p90 = none ∧
      (aggregateOne sqrtFn canonical thr ms).std_dev = none) ∧
    ((aggregateOne sqrtFn canonical thr ms).pass_rate =
      (if ms.length ≠ 0 then
        ((ms.filter (fun r => r.passed = some true)).length : ℚ) / (ms.length : ℚ) * 100
      else 0)) ∧
    ((∀ r ∈ ms, r.passed ≠ some true) →
      (aggregateOne sqrtFn canonical thr ms).pass_rate = 0) := by
  subst hc ht hms hsc
  refine ⟨?_, ?_, ?_, ?_, ?_, ?_, ?_⟩
  · exact aggregate_singleton sqrtFn config question_results m hm
  · intro hne
    constructor
    · rw [aggregateOne_p50, if_pos hne]
      unfold _percentile
      rw [if_neg hne]
      simp only [List.length_insertionSort, Int.cast_natCast]
    · rw [aggregateOne_p90, if_pos hne]
      unfold _percentile
      rw [if_neg hne]
      simp only [List.length_insertionSort, Int.cast_natCast]
  · intro hgt
    rw [aggregateOne_std_dev, if_pos hgt]
    rfl
  · intro x hx
    refine ⟨?_, ?_, ?_⟩
    · rw [aggregateOne_p50, if_pos (by rw [hx]; simp : _ ≠ ([] : List ℚ)), hx,
        percentile_single_50]
    · rw [aggregateOne_p90, if_pos (by rw [hx]; simp : _ ≠ ([] : List ℚ)), hx,
        percentile_single_90]
    · rw [aggregateOne_std_dev, hx]
      norm_num
  · intro hx
    refine ⟨?_, ?_, ?_, ?_, ?_, ?_⟩
    · rw [aggregateOne_avg, if_neg (by rw [hx]; simp)]
    · rw [aggregateOne_min, hx]; rfl
    · rw [aggregateOne_max, hx]; rfl
    · rw [aggregateOne_p50, if_neg (by rw [hx]; simp)]
    · rw [aggregateOne_p90, if_neg (by rw [hx]; simp)]
    · rw [aggregateOne_std_dev, hx]
      norm_num
  · exact aggregateOne_pass_rate _ _ _ _
  · intro hnone
    rw [aggregateOne_pass_rate]
    have hfil : (((question_results.map (fun q => q.metrics)).flatten).filter
        (fun r => r.metric_name = normalize_metric_name m)).filter
        (fun r => r.passed = some true) = ([] : List MetricResult) := by
      apply List.filter_eq_nil_iff.mpr
      intro r hr
      simpa using hnone r hr
    rw [hfil]
    by_cases hcnt : (((question_results.map (fun q => q.metrics)).flatten).filter
        (fun r => r.metric_name = normalize_metric_name m)).length = 0 <;>
      simp [hcnt]

/-- C3 witness: the amended theorem at one `faithfulness` result with
score 0.9 and threshold 0.75: the single-score aggregate has
`p50 = p90 = 0.9` and `std_dev = 0`. -/
theorem c3_witness :
    (aggregateOne (fun _ => 0) "faithfulness"
      ((thresholdAttr testConfig.thresholds "faithfulness").getD 0)
      [{ metric_name := "faithfulness", threshold := 3/4, score := some (9/10),
         passed := some true }]).p50 = some (9/10) := by
  have h := c3_aggregate_statistics (fun _ => 0) testConfig
    [⟨"Q1", "q", none, "a", [], none, none,
      [{ metric_name := "faithfulness", threshold := 3/4, score := some (9/10),
         passed := some true }], ("S1", "q"), ⟨"a", []⟩⟩]
    "faithfulness" "faithfulness"
    ((thresholdAttr testConfig.thresholds "faithfulness").getD 0)
    [{ metric_name := "faithfulness", threshold := 3/4, score := some (9/10),
       passed := some true }]
    [9/10]
    (by decide) (by decide) rfl (by with_unfolding_all decide)
    (by with_unfolding_all decide)
  exact (h.2.2.2.1 (9/10) rfl).1

/-! ### C5 -/

/-- C5: every `save_run` prepends one entry to both indices, truncating
the recent index to `keep_last_n` (newest first) while the
current-session index grows unbounded; `reset_current_session` empties
only the current-session index.  Concretely, with `keep_last_n = 2`,
three saves leave exactly the two newest entries in the recent index
while all three runs stay loadable from the current-session index until
reset, after which the current-session load is empty and the recent index
is untouched. -/
theorem c5_store_indices :
    (∀ (generated_at : String) (keep_last_n : Nat) (st : StoreState)
        (rr : RunResult) (st' : StoreState) (ts : TrendSummary),
      save_run generated_at keep_last_n st rr = Except.ok (st', ts) →
      st'.index = (newIndexEntry rr :: st.index).take keep_last_n ∧
      st'.index.length ≤ keep_last_n ∧
      st'.current_index = newIndexEntry rr :: st.current_index) ∧
    (∀ st : StoreState, reset_current_session st = ⟨st.files, st.index, []⟩) ∧
    (save_run "G" 2 initStore (miniRun "R1")).map Prod.fst = Except.ok c5state1 ∧
    (save_run "G" 2 c5state1 (miniRun "R2")).map Prod.fst = Except.ok c5state2 ∧
    (save_run "G" 2 c5state2 (miniRun "R3")).map Prod.fst = Except.ok c5state3 ∧
    c5state3.index = [miniEntry "R3", miniEntry "R2"] ∧
    load_current_session_run_results c5state3 =
      Except.ok [miniRun "R3", miniRun "R2", miniRun "R1"] ∧
    load_current_session_run_results (reset_current_session c5state3) =
      Except.ok [] ∧
    (reset_current_session c5state3).index = c5state3.index := by
  refine ⟨?_, ?_, ?_, ?_, ?_, ?_, ?_, ?_, ?_⟩
  · intro generated_at keep_last_n st rr st' ts h
    simp only [save_run] at h
    cases hb : _build_trends generated_at keep_last_n
        (setFile st.files (runFilePath rr.run_id) (some rr))
        ((newIndexEntry rr :: st.index).take keep_last_n) with
    | error e => rw [hb] at h; cases h
    | ok ts' =>
      rw [hb] at h
      cases h
      refine ⟨rfl, ?_, rfl⟩
      exact List.length_take_le _ _
  · intro st; rfl
  · with_unfolding_all decide
  · with_unfolding_all decide
  · with_unfolding_all decide
  · with_unfolding_all decide
  · with_unfolding_all decide
  · with_unfolding_all decide
  · with_unfolding_all decide

/-- C5 witness: the general `save_run` clause applied to the first
concrete save. -/
theorem c5_witness :
    c5state1.index = (newIndexEntry (miniRun "R1") :: initStore.index).take 2 ∧
    c5state1.current_index = newIndexEntry (miniRun "R1") :: initStore.current_index := by
  have h := c5_store_indices.1 "G" 2 initStore (miniRun "R1") c5state1
    ⟨"G", 2, []⟩ (by with_unfolding_all decide)
  exact ⟨h.1, h.2.2⟩

/-! ### C6 -/

/-- C6 counterexample.  A recent-index state whose single entry points at
a run file that exists but is unparsable makes `_build_trends` propagate
the parse error instead of treating the run as nonexistent. -/
theorem c6_counterexample :
    _build_trends "G" 5 [("runs/R1/results.json", none)]
      [⟨"R1", "T_R1", "runs/R1/results.json", "feat", "scen"⟩]
    = Except.error "JSONDecodeError: runs/R1/results.json" := by decide

/-- Unfolding equation of `buildTrendsFold` at a cons cell. -/
theorem buildTrendsFold_cons (files : RunFiles) (e : RunIndexEntry)
    (rest : List RunIndexEntry) (mm : List (String × List TrendPoint)) :
    buildTrendsFold files (e :: rest) mm =
      (match lookupFile files e.path with
       | none => buildTrendsFold files rest mm
       | some none => Except.error ("JSONDecodeError: " ++ e.path)
       | some (some run) => buildTrendsFold files rest (addRunPoints mm run)) := rfl

/-- Skipping missing files: `buildTrendsFold` never fails and ignores
missing entries when no indexed file is present-but-unparsable. -/
theorem buildTrendsFold_skips_missing (files : RunFiles) :
    ∀ (es : List RunIndexEntry) (mm : List (String × List TrendPoint)),
      (∀ e ∈ es, lookupFile files e.path ≠ some none) →
      buildTrendsFold files es mm =
        buildTrendsFold files (es.filter (fun e => (lookupFile files e.path).isSome)) mm ∧
      ∃ r, buildTrendsFold files es mm = Except.ok r := by
  intro es
  induction es with
  | nil => intro mm _; exact ⟨rfl, _, rfl⟩
  | cons e rest ih =>
    intro mm h
    have he := h e (by simp)
    have hrest : ∀ x ∈ rest, lookupFile files x.path ≠ some none := by
      intro x hx; exact h x (by simp [hx])
    cases hl : lookupFile files e.path with
    | none =>
      have hr := ih mm hrest
      refine ⟨?_, ?_⟩
      · rw [buildTrendsFold_cons, hl, List.filter_cons, hl]
        simpa using hr.1
      · rw [buildTrendsFold_cons, hl]
        exact hr.2
    | some content =>
      cases content with
      | none => exact absurd hl he
      | some run =>
        have hr := ih (addRunPoints mm run) hrest
        refine ⟨?_, ?_⟩
        · rw [buildTrendsFold_cons, hl, List.filter_cons, hl]
          simp only [Option.isSome_some, if_true]
          rw [buildTrendsFold_cons, hl]
          exact hr.1
        · rw [buildTrendsFold_cons, hl]
          exact hr.2

/-- C6 (amended): trend rebuilding never raises *provided every indexed
run file that exists parses*: entries whose backing file is missing are
treated as if the run did not exist and contribute no points, but an
entry whose file exists with unparsable contents makes the rebuild raise
(`json.loads`/`model_validate` propagate). -/
theorem c6_trend_rebuild_skips_missing (generated_at : String) (keep_last_n : Nat)
    (files : RunFiles) (entries : List RunIndexEntry)
    (h : ∀ e ∈ entries, lookupFile files e.path ≠ some none) :
    (∃ ts, _build_trends generated_at keep_last_n files entries = Except.ok ts) ∧
    _build_trends generated_at keep_last_n files entries =
      _build_trends generated_at keep_last_n files
        (entries.filter (fun e => (lookupFile files e.path).isSome)) := by
  have hrev : ∀ e ∈ entries.reverse, lookupFile files e.path ≠ some none := by
    intro e he; exact h e (List.mem_reverse.mp he)
  have hfold := buildTrendsFold_skips_missing files entries.reverse [] hrev
  constructor
  · obtain ⟨r, hr⟩ := hfold.2
    unfold _build_trends
    rw [hr]
    exact ⟨_, rfl⟩
  · unfold _build_trends
    rw [← List.filter_reverse, hfold.1]

/-- C6 witness: the amended theorem on a two-entry index where the second
entry's file is missing: the rebuild succeeds and equals the rebuild on
the present entries alone. -/
theorem c6_witness :
    (∃ ts, _build_trends "G" 5 [miniFile "R1"]
      [miniEntry "R1", miniEntry "R2"] = Except.ok ts) ∧
    _build_trends "G" 5 [miniFile "R1"] [miniEntry "R1", miniEntry "R2"] =
      _build_trends "G" 5 [miniFile "R1"]
        ([miniEntry "R1", miniEntry "R2"].filter
          (fun e => (lookupFile [miniFile "R1"] e.path).isSome)) :=
  c6_trend_rebuild_skips_missing "G" 5 [miniFile "R1"]
    [miniEntry "R1", miniEntry "R2"] (by decide)

/-! ### C8 -/

/-- A successful association-list lookup exposes a member pair. -/
theorem lookup_mem {α β : Type} [BEq α] [LawfulBEq α] {a : α} {b : β}
    {l : List (α × β)} (h : List.lookup a l = some b) : (a, b) ∈ l := by
  induction l with
  | nil => cases h
  | cons kv rest ih =>
    have hunfold : List.lookup a (kv :: rest) =
        (match a == kv.1 with
          | true => some kv.2
          | false => List.lookup a rest) := rfl
    cases he : a == kv.1 with
    | true =>
      rw [hunfold, he] at h
      obtain rfl : kv.2 = b := by cases h; rfl
      have ha : a = kv.1 := eq_of_beq he
      subst ha
      exact List.mem_cons.mpr (Or.inl rfl)
    | false =>
      rw [hunfold, he] at h
      exact List.mem_cons.mpr (Or.inr (ih h))

/-- Simulation invariant between a cache state reached with caller
mutations and the one reached by the same `ask` calls alone: the caches
agree, every cache-resident address is valid, was never handed to a
caller, and holds the same payload in both heaps. -/
def CacheInv {P : Type} [Inhabited P] (st st' : CacheState P) : Prop :=
  st.cache = st'.cache ∧
  st.heap.length = st'.heap.length ∧
  st.returned = st'.returned ∧
  (∀ kc ∈ st.cache, kc.2 < st.heap.length ∧ kc.2 ∉ st.returned ∧
    st.heap.getD kc.2 default = st'.heap.getD kc.2 default) ∧
  (∀ a ∈ st.returned, a < st.heap.length)

/-- The invariant holds of the initial (empty) state. -/
theorem cacheInv_init (P : Type) [Inhabited P] :
    CacheInv (initCacheState P) (initCacheState P) := by
  refine ⟨rfl, rfl, rfl, ?_, ?_⟩ <;> intro x hx <;> simp [initCacheState] at hx

/-- One `ask_question` step preserves the invariant. -/
theorem cacheInv_step_ask {P : Type} [Inhabited P] (backend : String → String → P)
    {st st' : CacheState P} (h : CacheInv st st') (sid q : String) :
    CacheInv (stepCache backend st (CacheOp.ask sid q))
      (stepCache backend st' (CacheOp.ask sid q)) := by
  obtain ⟨hc, hlen, hretEq, hcache, hret⟩ := h
  cases hl : List.lookup (sid, pyStrip q) st.cache with
  | some c =>
    simp only [stepCache, ask_question, ← hc, ← hlen, ← hretEq, hl]
    refine ⟨rfl, by simp [hlen], rfl, ?_, ?_⟩
    · intro kc hkc
      obtain ⟨h1, h2, h3⟩ := hcache kc hkc
      refine ⟨by simp; omega, ?_, ?_⟩
      · simp only [List.mem_append, List.mem_singleton]
        push_neg
        exact ⟨h2, by omega⟩
      · rw [show (st.heap ++ [st.heap.getD c default]).getD kc.2 default =
            st.heap.getD kc.2 default from by
          simp [List.getD, List.getElem?_append, h1]]
        rw [show (st'.heap ++ [st'.heap.getD c default]).getD kc.2 default =
            st'.heap.getD kc.2 default from by
          simp [List.getD, List.getElem?_append, hlen ▸ h1]]
        exact h3
    · intro a ha
      simp only [List.mem_append, List.mem_singleton] at ha
      rcases ha with ha | ha
      · have := hret a ha; simp; omega
      · subst ha; simp
  | none =>
    simp only [stepCache, ask_question, ← hc, ← hlen, ← hretEq, hl]
    refine ⟨rfl, by simp [hlen], rfl, ?_, ?_⟩
    · intro kc hkc
      simp only [List.mem_append, List.mem_singleton] at hkc
      rcases hkc with hkc | hkc
      · obtain ⟨h1, h2, h3⟩ := hcache kc hkc
        refine ⟨by simp; omega, ?_, ?_⟩
        · simp only [List.mem_append, List.mem_singleton]
          push_neg
          exact ⟨h2, by omega⟩
        · rw [show (st.heap ++ [backend sid q, backend sid q]).getD kc.2 default =
              st.heap.getD kc.2 default from by
            simp [List.getD, List.getElem?_append, h1]]
          rw [show (st'.heap ++ [backend sid q, backend sid q]).getD kc.2 default =
              st'.heap.getD kc.2 default from by
            simp [List.getD, List.getElem?_append, hlen ▸ h1]]
          exact h3
      · subst hkc
        refine ⟨by simp, ?_, ?_⟩
        · simp only [List.mem_append, List.mem_singleton]
          push_neg
          refine ⟨fun hmem => ?_, by omega⟩
          have := hret _ hmem
          omega
        · rw [show (st.heap ++ [backend sid q, backend sid q]).getD
              (st.heap.length + 1) default = backend sid q from by
            rw [List.getD_eq_getElem?_getD, List.getElem?_append_right (by omega)]
            simp]
          rw [hlen]
          rw [show (st'.heap ++ [backend sid q, backend sid q]).getD
              (st'.heap.length + 1) default = backend sid q from by
            rw [List.getD_eq_getElem?_getD, List.getElem?_append_right (by omega)]
            simp]
    · intro a ha
      simp only [List.mem_append, List.mem_singleton] at ha
      rcases ha with ha | ha
      · have := hret a ha; simp; omega
      · subst ha; simp

/-- A caller mutation of a returned object preserves the invariant (the
asks-only state is untouched). -/
theorem cacheInv_step_mutate {P : Type} [Inhabited P] (backend : String → String → P)
    {st st' : CacheState P} (h : CacheInv st st') (i : Nat) (p : P) :
    CacheInv (stepCache backend st (CacheOp.mutate i p)) st' := by
  obtain ⟨hc, hlen, hretEq, hcache, hret⟩ := h
  simp only [stepCache]
  cases hi : st.returned[i]? with
  | none => exact ⟨hc, hlen, hretEq, hcache, hret⟩
  | some a =>
    have haRet : a ∈ st.returned := List.getElem?_mem hi
    refine ⟨hc, by simp [hlen], hretEq, ?_, ?_⟩
    · intro kc hkc
      obtain ⟨h1, h2, h3⟩ := hcache kc hkc
      refine ⟨by simp [h1], h2, ?_⟩
      have hne : kc.2 ≠ a := fun he => h2 (he ▸ haRet)
      rw [show (st.heap.set a p).getD kc.2 default = st.heap.getD kc.2 default from by
        simp [List.getD, List.getElem?_set_ne (Ne.symm hne)]]
      exact h3
    · intro x hx
      have := hret x hx
      simp
      omega

/-- Running a trace preserves the invariant against the mutation-free
trace. -/
theorem cacheInv_run {P : Type} [Inhabited P] (backend : String → String → P) :
    ∀ (ops : List (CacheOp P)) {st st' : CacheState P}, CacheInv st st' →
      CacheInv (runCache backend st ops)
        (runCache backend st' (ops.filter CacheOp.isAsk)) := by
  intro ops
  induction ops with
  | nil => intro st st' h; exact h
  | cons op rest ih =>
    intro st st' h
    cases op with
    | ask sid q =>
      have hstep := cacheInv_step_ask backend h sid q
      simpa [runCache, CacheOp.isAsk] using ih hstep
    | mutate i p =>
      have hstep := cacheInv_step_mutate backend h i p
      simpa [runCache, CacheOp.isAsk] using ih hstep

/-- Invariant-related states yield the same observed payload for any
`ask_question` call. -/
theorem askPayload_eq_of_inv {P : Type} [Inhabited P]
    (backend : String → String → P) {st st' : CacheState P}
    (h : CacheInv st st') (sid q : String) :
    askPayload backend st sid q = askPayload backend st' sid q := by
  obtain ⟨hc, hlen, _, hcache, _⟩ := h
  cases hl : List.lookup (sid, pyStrip q) st.cache with
  | some c =>
    obtain ⟨h1, _, h3⟩ := hcache _ (lookup_mem hl)
    simp only [askPayload, ask_question, ← hc, hl]
    rw [show (st.heap ++ [st.heap.getD c default]).getD st.heap.length default =
        st.heap.getD c default from by
      rw [List.getD_eq_getElem?_getD, List.getElem?_append_right (le_refl _)]
      simp]
    rw [show (st'.heap ++ [st'.heap.getD c default]).getD st'.heap.length default =
        st'.heap.getD c default from by
      rw [List.getD_eq_getElem?_getD, List.getElem?_append_right (le_refl _)]
      simp]
    exact h3
  | none =>
    simp only [askPayload, ask_question, ← hc, hl]
    rw [show (st.heap ++ [backend sid q, backend sid q]).getD st.heap.length default =
        backend sid q from by
      rw [List.getD_eq_getElem?_getD, List.getElem?_append_right (le_refl _)]
      simp]
    rw [show (st'.heap ++ [backend sid q, backend sid q]).getD st'.heap.length default =
        backend sid q from by
      rw [List.getD_eq_getElem?_getD, List.getElem?_append_right (le_refl _)]
      simp]

/-- C8: with `use_cache=True`, the payload a caller observes from
`ask_question` — keyed by `(session_id, question.strip())`, a deep copy
of the cached entry on a hit, the fresh response on a miss while a deep
copy is stored — is unchanged if every caller mutation of previously
returned response payloads is erased from the trace: no mutation of a
returned payload is ever observable through a later cached call. -/
theorem c8_cache_mutation_isolation (P : Type) [Inhabited P]
    (backend : String → String → P) (ops : List (CacheOp P))
    (sid question : String) :
    askPayload backend (runCache backend (initCacheState P) ops) sid question =
      askPayload backend
        (runCache backend (initCacheState P) (ops.filter CacheOp.isAsk))
        sid question :=
  askPayload_eq_of_inv backend
    (cacheInv_run backend ops (cacheInv_init P)) sid question

/-! ### Shared lemmas on the evaluation run (used by C4, C7, C10) -/

/-- `Except.bind` of a success reduces to the continuation. -/
theorem except_bind_ok {e a b : Type} (x : a) (f : a → Except e b) :
    (Except.ok x >>= f) = f x := rfl

/-- `mkMetricResult` always records the canonical name it was given. -/
theorem mkMetricResult_name (env : EvalEnv) (c : String) (thr : ℚ) (tc : TestCase) :
    (mkMetricResult env c thr tc).metric_name = c := by
  cases h : (env.scorer c tc).raises with
  | none => simp only [mkMetricResult, h]
  | some msg => simp only [mkMetricResult, h]

/-- When the scorer raises, `mkMetricResult` records exactly the
error-shaped result of the `except` branch. -/
theorem mkMetricResult_raises (env : EvalEnv) (c : String) (thr : ℚ) (tc : TestCase)
    (msg : String) (h : (env.scorer c tc).raises = some msg) :
    mkMetricResult env c thr tc =
      { metric_name := c, threshold := thr, score := none, passed := some false,
        reason := none, error := some msg,
        evaluation_model := (env.scorer c tc).evaluation_model } := by
  simp only [mkMetricResult, h]

/-- `scoreMetric` succeeds on any name whose canonical form is one of the
six supported metrics. -/
theorem scoreMetric_ok (env : EvalEnv) (config : AppConfig) (tc : TestCase)
    (m : String) (hm : normalize_metric_name m ∈ METRIC_ORDER) :
    scoreMetric env config tc m = Except.ok
      (mkMetricResult env (normalize_metric_name m)
        ((thresholdAttr config.thresholds (normalize_metric_name m)).getD 0) tc) := by
  have hcanon : normalize_metric_name (normalize_metric_name m) =
      normalize_metric_name m := normalize_canonical _ hm
  obtain ⟨v, hv⟩ : ∃ v,
      thresholdAttr config.thresholds (normalize_metric_name m) = some v := by
    rcases ho : thresholdAttr config.thresholds (normalize_metric_name m) with _ | v
    · rw [thresholdAttr_of_canonical _ _ hm] at ho; cases ho
    · exact ⟨v, rfl⟩
  have hcontains : METRIC_ORDER.contains (normalize_metric_name m) = true :=
    List.elem_eq_true_of_mem hm
  rw [show (thresholdAttr config.thresholds (normalize_metric_name m)).getD 0 = v from by
    rw [hv]; rfl]
  simp only [scoreMetric, metric_threshold, hcanon, hv, hcontains, if_true]

/-- The metric loop succeeds and maps `mkMetricResult` over the resolved
metrics when every canonical name is supported. -/
theorem scoreRowMetrics_ok (env : EvalEnv) (config : AppConfig) (tc : TestCase) :
    ∀ (ms : List String), (∀ m ∈ ms, normalize_metric_name m ∈ METRIC_ORDER) →
      scoreRowMetrics env config tc ms = Except.ok (ms.map (fun m =>
        mkMetricResult env (normalize_metric_name m)
          ((thresholdAttr config.thresholds (normalize_metric_name m)).getD 0) tc)) := by
  intro ms
  induction ms with
  | nil => intro _; rfl
  | cons m rest ih =>
    intro h
    have hm := h m (by simp)
    have hrest : ∀ x ∈ rest, normalize_metric_name x ∈ METRIC_ORDER := by
      intro x hx; exact h x (by simp [hx])
    show (do
      let r ← scoreMetric env config tc m
      let rs ← scoreRowMetrics env config tc rest
      Except.ok (r :: rs)) = _
    rw [scoreMetric_ok env config tc m hm, ih hrest]
    rfl

/-- One row of the run evaluates to the fully explicit question result
when the session resolves, is non-empty, and every resolved metric is
supported. -/
theorem evalRow_ok (env : EvalEnv) (config : AppConfig) (selected : List String)
    (total : Nat) (docs : List String) (session : Option String) (sv : String)
    (hs : _row_session env config docs session = some sv) (hsv : sv ≠ "")
    (i : Nat) (row : DatasetRow)
    (hm : ∀ m ∈ _resolve_row_metrics config row selected i total,
      normalize_metric_name m ∈ METRIC_ORDER) :
    evalRow env config selected total docs session i row = Except.ok
      ⟨row.id, row.question, row.expected_answer,
       (env.ask sv row.question).answer,
       _trim_retrieval_context config (env.ask sv row.question).retrieval_context,
       row.category, row.source_reference,
       (_resolve_row_metrics config row selected i total).map (fun m =>
         mkMetricResult env (normalize_metric_name m)
           ((thresholdAttr config.thresholds (normalize_metric_name m)).getD 0)
           ⟨row.question, (env.ask sv row.question).answer,
            row.expected_answer.getD (env.ask sv row.question).answer,
            _trim_retrieval_context config (env.ask sv row.question).retrieval_context⟩),
       (sv, row.question), env.ask sv row.question⟩ := by
  simp only [evalRow, hs, if_neg hsv]
  rw [scoreRowMetrics_ok env config _ _ hm]

/-- The row loop evaluates every row, in order, to its explicit question
result. -/
theorem evalRows_ok (env : EvalEnv) (config : AppConfig) (selected : List String)
    (total : Nat) (docs : List String) (session : Option String) (sv : String)
    (hs : _row_session env config docs session = some sv) (hsv : sv ≠ "") :
    ∀ (start : Nat) (rows : List DatasetRow),
      (∀ i row, rows[i]? = some row →
        ∀ m ∈ _resolve_row_metrics config row selected (start + i) total,
          normalize_metric_name m ∈ METRIC_ORDER) →
      ∃ qrs : List QuestionEvalResult,
        evalRows env config selected total docs session start rows = Except.ok qrs ∧
        qrs.length = rows.length ∧
        qrs.map (fun q => q.question_id) = rows.map (fun r => r.id) ∧
        (∀ i row, rows[i]? = some row → qrs[i]? = some
          (⟨row.id, row.question, row.expected_answer,
           (env.ask sv row.question).answer,
           _trim_retrieval_context config (env.ask sv row.question).retrieval_context,
           row.category, row.source_reference,
           (_resolve_row_metrics config row selected (start + i) total).map (fun m =>
             mkMetricResult env (normalize_metric_name m)
               ((thresholdAttr config.thresholds (normalize_metric_name m)).getD 0)
               ⟨row.question, (env.ask sv row.question).answer,
                row.expected_answer.getD (env.ask sv row.question).answer,
                _trim_retrieval_context config (env.ask sv row.question).retrieval_context⟩),
           (sv, row.question), env.ask sv row.question⟩ : QuestionEvalResult)) := by
  intro start rows
  induction rows generalizing start with
  | nil =>
    intro _
    refine ⟨[], rfl, rfl, rfl, ?_⟩
    intro i row h
    simp at h
  | cons row rest ih =>
    intro h
    have h0 := h 0 row (by simp)
    rw [Nat.add_zero] at h0
    obtain ⟨qrs', hq', hlen', hmap', hidx'⟩ := ih (start + 1) (fun i r hr => by
      have h2 := h (i + 1) r (by simpa using hr)
      have heq : start + (i + 1) = start + 1 + i := by omega
      rw [heq] at h2
      exact h2)
    refine ⟨(⟨row.id, row.question, row.expected_answer,
        (env.ask sv row.question).answer,
        _trim_retrieval_context config (env.ask sv row.question).retrieval_context,
        row.category, row.source_reference,
        (_resolve_row_metrics config row selected start total).map (fun m =>
          mkMetricResult env (normalize_metric_name m)
            ((thresholdAttr config.thresholds (normalize_metric_name m)).getD 0)
            ⟨row.question, (env.ask sv row.question).answer,
             row.expected_answer.getD (env.ask sv row.question).answer,
             _trim_retrieval_context config (env.ask sv row.question).retrieval_context⟩),
        (sv, row.question), env.ask sv row.question⟩ : QuestionEvalResult) :: qrs',
      ?_, ?_, ?_, ?_⟩
    · show (do
        let qr ← evalRow env config selected total docs session start row
        let qrs ← evalRows env config selected total docs session (start + 1) rest
        Except.ok (qr :: qrs)) = _
      rw [evalRow_ok env config selected total docs session sv hs hsv start row h0]
      simp only [except_bind_ok]
      rw [hq']
      simp only [except_bind_ok]
    · simpa using hlen'
    · simpa using hmap'
    · intro i r hr
      cases i with
      | zero =>
        obtain rfl : row = r := by simpa using hr
        simp
      | succ k =>
        have hk := hidx' k r (by simpa using hr)
        have heq : start + 1 + k = start + (k + 1) := by omega
        rw [heq] at hk
        simpa using hk

/-- `(aggregateOne …).metric_name` is the canonical name it was given. -/
theorem aggregateOne_name (sqrtFn : ℚ → ℚ) (c : String) (thr : ℚ)
    (ms : List MetricResult) : (aggregateOne sqrtFn c thr ms).metric_name = c := rfl

/-- `(aggregateOne …).count` counts exactly the contributing results. -/
theorem aggregateOne_count (sqrtFn : ℚ → ℚ) (c : String) (thr : ℚ)
    (ms : List MetricResult) : (aggregateOne sqrtFn c thr ms).count = ms.length := rfl

/-- `_aggregate` succeeds on any selected list of supported metric names,
producing one `aggregateOne` per selected metric over the results bearing
its canonical name. -/
theorem aggregate_ok (sqrtFn : ℚ → ℚ) (config : AppConfig)
    (question_results : List QuestionEvalResult) :
    ∀ (selected : List String),
      (∀ m ∈ selected, normalize_metric_name m ∈ METRIC_ORDER) →
      _aggregate sqrtFn config question_results selected = Except.ok
        (selected.map (fun m => aggregateOne sqrtFn (normalize_metric_name m)
          ((thresholdAttr config.thresholds (normalize_metric_name m)).getD 0)
          (((question_results.map (fun q => q.metrics)).flatten).filter
            (fun r => r.metric_name = normalize_metric_name m)))) := by
  intro selected
  induction selected with
  | nil => intro _; rfl
  | cons m rest ih =>
    intro h
    have hm := h m (by simp)
    have hrest : ∀ x ∈ rest, normalize_metric_name x ∈ METRIC_ORDER := by
      intro x hx; exact h x (by simp [hx])
    have hcanon : normalize_metric_name (normalize_metric_name m) =
        normalize_metric_name m := normalize_canonical _ hm
    obtain ⟨v, hv⟩ : ∃ v,
        thresholdAttr config.thresholds (normalize_metric_name m) = some v := by
      rcases ho : thresholdAttr config.thresholds (normalize_metric_name m) with _ | v
      · rw [thresholdAttr_of_canonical _ _ hm] at ho; cases ho
      · exact ⟨v, rfl⟩
    rw [List.map_cons]
    rw [show (thresholdAttr config.thresholds (normalize_metric_name m)).getD 0 = v from by
      rw [hv]; rfl]
    simp only [_aggregate, metric_threshold, hcanon, hv, ih hrest]

/-- `evaluate_dataset` completes with a fully characterized `RunResult`
when the session resolves non-empty and every resolved or selected metric
is supported. -/
theorem evaluate_dataset_ok (env : EvalEnv) (config : AppConfig)
    (rows : List DatasetRow) (selected : List String) (session : Option String)
    (feature scenario : String) (tags : List String) (docs : List String)
    (sv : String)
    (hs : _row_session env config docs session = some sv) (hsv : sv ≠ "")
    (hrows : ∀ i row, rows[i]? = some row →
      ∀ m ∈ _resolve_row_metrics config row selected i rows.length,
        normalize_metric_name m ∈ METRIC_ORDER)
    (hsel : ∀ m ∈ selected, normalize_metric_name m ∈ METRIC_ORDER) :
    ∃ qrs : List QuestionEvalResult,
      evaluate_dataset env config rows selected session feature scenario tags docs
        = Except.ok ⟨env.run_id, env.timestamp, feature, scenario, tags, selected,
            rows.length, qrs,
            selected.map (fun m => aggregateOne env.sqrtFn (normalize_metric_name m)
              ((thresholdAttr config.thresholds (normalize_metric_name m)).getD 0)
              (((qrs.map (fun q => q.metrics)).flatten).filter
                (fun r => r.metric_name = normalize_metric_name m)))⟩ ∧
      qrs.length = rows.length ∧
      qrs.map (fun q => q.question_id) = rows.map (fun r => r.id) ∧
      (∀ i row, rows[i]? = some row → qrs[i]? = some
        (⟨row.id, row.question, row.expected_answer,
         (env.ask sv row.question).answer,
         _trim_retrieval_context config (env.ask sv row.question).retrieval_context,
         row.category, row.source_reference,
         (_resolve_row_metrics config row selected i rows.length).map (fun m =>
           mkMetricResult env (normalize_metric_name m)
             ((thresholdAttr config.thresholds (normalize_metric_name m)).getD 0)
             ⟨row.question, (env.ask sv row.question).answer,
              row.expected_answer.getD (env.ask sv row.question).answer,
              _trim_retrieval_context config (env.ask sv row.question).retrieval_context⟩),
         (sv, row.question), env.ask sv row.question⟩ : QuestionEvalResult)) := by
  obtain ⟨qrs, hq, hlen, hmap, hidx⟩ :=
    evalRows_ok env config selected rows.length docs session sv hs hsv 0 rows
      (fun i row hr => by simpa using hrows i row hr)
  refine ⟨qrs, ?_, hlen, hmap, fun i row hr => by simpa using hidx i row hr⟩
  show (do
    let question_results ← evalRows env config selected rows.length docs session 0 rows
    let aggregates ← _aggregate env.sqrtFn config question_results selected
    Except.ok (⟨env.run_id, env.timestamp, feature, scenario, tags, selected,
      rows.length, question_results, aggregates⟩ : RunResult)) = _
  rw [hq]
  simp only [except_bind_ok]
  rw [aggregate_ok env.sqrtFn config qrs selected hsel]
  simp only [except_bind_ok]

/-! ### C4 -/

/-- C4: when the scorer of one resolved metric raises on one row, the
run still completes with a `RunResult` covering every row, every row
still records one `MetricResult` per resolved metric, and the failing
`(question, metric)` pair records `score=None`, `passed=False` and
`error=<message>`. -/
theorem c4_scoring_error_isolated (env : EvalEnv) (config : AppConfig)
    (rows : List DatasetRow) (selected : List String) (session : Option String)
    (feature scenario : String) (tags : List String) (docs : List String)
    (sv : String)
    (hs : _row_session env config docs session = some sv) (hsv : sv ≠ "")
    (hrows : ∀ i row, rows[i]? = some row →
      ∀ m ∈ _resolve_row_metrics config row selected i rows.length,
        normalize_metric_name m ∈ METRIC_ORDER)
    (hsel : ∀ m ∈ selected, normalize_metric_name m ∈ METRIC_ORDER)
    (i : Nat) (row : DatasetRow) (hrow : rows[i]? = some row)
    (m : String) (hm : m ∈ _resolve_row_metrics config row selected i rows.length)
    (msg : String)
    (hraise : (env.scorer (normalize_metric_name m)
      ⟨row.question, (env.ask sv row.question).answer,
       row.expected_answer.getD (env.ask sv row.question).answer,
       _trim_retrieval_context config (env.ask sv row.question).retrieval_context⟩).raises
      = some msg) :
    ∃ rr : RunResult,
      evaluate_dataset env config rows selected session feature scenario tags docs
        = Except.ok rr ∧
      rr.question_results.length = rows.length ∧
      (∀ k rowk qk, rows[k]? = some rowk → rr.question_results[k]? = some qk →
        qk.metrics.length =
          (_resolve_row_metrics config rowk selected k rows.length).length) ∧
      (∃ qi, rr.question_results[i]? = some qi ∧
        ({ metric_name := normalize_metric_name m,
           threshold := (thresholdAttr config.thresholds (normalize_metric_name m)).getD 0,
           score := none, passed := some false, reason := none, error := some msg,
           evaluation_model := (env.scorer (normalize_metric_name m)
             ⟨row.question, (env.ask sv row.question).answer,
              row.expected_answer.getD (env.ask sv row.question).answer,
              _trim_retrieval_context config (env.ask sv row.question).retrieval_context⟩).evaluation_model }
          : MetricResult) ∈ qi.metrics) := by
  obtain ⟨qrs, hok, hlen, hmap, hidx⟩ := evaluate_dataset_ok env config rows selected
    session feature scenario tags docs sv hs hsv hrows hsel
  refine ⟨_, hok, ?_, ?_, ?_⟩
  · show qrs.length = rows.length
    exact hlen
  · intro k rowk qk hk hq
    have hq' : qrs[k]? = some qk := hq
    rw [hidx k rowk hk] at hq'
    have hqe := Option.some.inj hq'
    subst hqe
    simp
  · have hq' : qrs[i]? = some _ := hidx i row hrow
    refine ⟨_, hq', ?_⟩
    show _ ∈ (_resolve_row_metrics config row selected i rows.length).map (fun m =>
      mkMetricResult env (normalize_metric_name m)
        ((thresholdAttr config.thresholds (normalize_metric_name m)).getD 0)
        ⟨row.question, (env.ask sv row.question).answer,
         row.expected_answer.getD (env.ask sv row.question).answer,
         _trim_retrieval_context config (env.ask sv row.question).retrieval_context⟩)
    rw [← mkMetricResult_raises env (normalize_metric_name m)
      ((thresholdAttr config.thresholds (normalize_metric_name m)).getD 0)
      ⟨row.question, (env.ask sv row.question).answer,
       row.expected_answer.getD (env.ask sv row.question).answer,
       _trim_retrieval_context config (env.ask sv row.question).retrieval_context⟩
      msg hraise]
    exact List.mem_map_of_mem _ hm

/-- C4 witness: on a two-row run where measuring `faithfulness` raises
`"boom"` on every row while `answer_relevancy` succeeds, the run
completes with both rows, two results per row, and row 0 records the
failing faithfulness result. -/
theorem c4_witness :
    ∃ rr : RunResult,
      evaluate_dataset raisingEnv testConfig
          [plainRow "Q1" "q1", plainRow "Q2" "q2"]
          ["faithfulness", "answer_relevancy"] (some "S1") "f" "s" [] []
        = Except.ok rr ∧
      rr.question_results.length = 2 ∧
      (∀ k rowk qk,
        [plainRow "Q1" "q1", plainRow "Q2" "q2"][k]? = some rowk →
        rr.question_results[k]? = some qk →
        qk.metrics.length =
          (_resolve_row_metrics testConfig rowk ["faithfulness", "answer_relevancy"]
            k 2).length) ∧
      (∃ qi, rr.question_results[0]? = some qi ∧
        ({ metric_name := normalize_metric_name "faithfulness",
           threshold := (thresholdAttr testConfig.thresholds
             (normalize_metric_name "faithfulness")).getD 0,
           score := none, passed := some false, reason := none, error := some "boom",
           evaluation_model := (raisingEnv.scorer (normalize_metric_name "faithfulness")
             ⟨(plainRow "Q1" "q1").question,
              (raisingEnv.ask "S1" (plainRow "Q1" "q1").question).answer,
              (plainRow "Q1" "q1").expected_answer.getD
                (raisingEnv.ask "S1" (plainRow "Q1" "q1").question).answer,
              _trim_retrieval_context testConfig
                (raisingEnv.ask "S1" (plainRow "Q1" "q1").question).retrieval_context⟩).evaluation_model }
          : MetricResult) ∈ qi.metrics) :=
  c4_scoring_error_isolated raisingEnv testConfig
    [plainRow "Q1" "q1", plainRow "Q2" "q2"]
    ["faithfulness", "answer_relevancy"] (some "S1") "f" "s" [] [] "S1"
    (by decide) (by decide)
    (by
      intro i row h
      rcases i with _ | _ | i
      · obtain rfl : plainRow "Q1" "q1" = row := by simpa using h
        decide
      · obtain rfl : plainRow "Q2" "q2" = row := by simpa using h
        decide
      · simp at h)
    (by decide)
    0 (plainRow "Q1" "q1") (by simp)
    "faithfulness" (by decide) "boom" (by decide)

/-! ### C7 -/

/-- C7 counterexample.  In mapping mode `row`, a row whose metadata names
`faithfulness, contextual_precision` (in that order) yields MetricResults
in exactly that scoring insertion order — while the canonical order of
those two metrics puts `contextual_precision` first. -/
theorem c7_counterexample :
    (evaluate_dataset testEnv rowModeConfig [rowMetaRow]
        ["contextual_precision", "faithfulness"] (some "S1") "f" "s" [] []).map
      (fun rr => rr.question_results.map (fun q => q.metrics.map (fun r => r.metric_name)))
      = Except.ok [["faithfulness", "contextual_precision"]] ∧
    METRIC_ORDER.filter
        (fun m => ["faithfulness", "contextual_precision"].contains m)
      = ["contextual_precision", "faithfulness"] ∧
    (["faithfulness", "contextual_precision"] : List String) ≠
      ["contextual_precision", "faithfulness"] := by
  refine ⟨by with_unfolding_all decide, by decide, by decide⟩

/-- Tag-based selection always returns a subsequence of the canonical
metric order. -/
theorem orderedMetrics_sublist (metrics : List String) :
    (orderedMetrics metrics).Sublist METRIC_ORDER := List.filter_sublist _

/-- C7 (amended): QuestionEvalResults appear in dataset-row order, and
the MetricResults within each question appear in the order the row's
metrics were resolved — the insertion order of scoring.  That order
coincides with the fixed canonical metric order whenever the scored
metrics come from tag-based selection (`select_metrics_from_tags` output
is always a subsequence of the canonical order), but not in general in
`row` mode. -/
theorem c7_result_ordering (env : EvalEnv) (config : AppConfig)
    (rows : List DatasetRow) (selected : List String) (session : Option String)
    (feature scenario : String) (tags : List String) (docs : List String)
    (sv : String)
    (hs : _row_session env config docs session = some sv) (hsv : sv ≠ "")
    (hrows : ∀ i row, rows[i]? = some row →
      ∀ m ∈ _resolve_row_metrics config row selected i rows.length,
        normalize_metric_name m ∈ METRIC_ORDER)
    (hsel : ∀ m ∈ selected, normalize_metric_name m ∈ METRIC_ORDER) :
    (∃ rr : RunResult,
      evaluate_dataset env config rows selected session feature scenario tags docs
        = Except.ok rr ∧
      rr.question_results.map (fun q => q.question_id) = rows.map (fun r => r.id) ∧
      (∀ i row qi, rows[i]? = some row → rr.question_results[i]? = some qi →
        qi.metrics.map (fun r => r.metric_name) =
          (_resolve_row_metrics config row selected i rows.length).map
            normalize_metric_name)) ∧
    (∀ (tags' explicit : List String),
      (select_metrics_from_tags tags' explicit).Sublist METRIC_ORDER) := by
  constructor
  · obtain ⟨qrs, hok, hlen, hmap, hidx⟩ := evaluate_dataset_ok env config rows selected
      session feature scenario tags docs sv hs hsv hrows hsel
    refine ⟨_, hok, ?_, ?_⟩
    · show qrs.map (fun q => q.question_id) = rows.map (fun r => r.id)
      exact hmap
    · intro i row qi hi hq
      have hq' : qrs[i]? = some qi := hq
      rw [hidx i row hi] at hq'
      have hqe := Option.some.inj hq'
      subst hqe
      simp [mkMetricResult_name]
  · intro tags' explicit
    unfold select_metrics_from_tags
    split
    · exact orderedMetrics_sublist _
    · exact orderedMetrics_sublist _

/-- C7 witness: the amended theorem on the concrete row-mode run of the
counterexample: question order follows the dataset and the row's metric
results follow its resolution order. -/
theorem c7_witness :
    ∃ rr : RunResult,
      evaluate_dataset testEnv rowModeConfig [rowMetaRow]
          ["contextual_precision", "faithfulness"] (some "S1") "f" "s" [] []
        = Except.ok rr ∧
      rr.question_results.map (fun q => q.question_id) = [rowMetaRow].map (fun r => r.id) ∧
      (∀ i row qi, [rowMetaRow][i]? = some row → rr.question_results[i]? = some qi →
        qi.metrics.map (fun r => r.metric_name) =
          (_resolve_row_metrics rowModeConfig row
            ["contextual_precision", "faithfulness"] i 1).map normalize_metric_name) :=
  (c7_result_ordering testEnv rowModeConfig [rowMetaRow]
    ["contextual_precision", "faithfulness"] (some "S1") "f" "s" [] [] "S1"
    (by decide) (by decide)
    (by
      intro i row h
      rcases i with _ | i
      · obtain rfl : rowMetaRow = row := by simpa using h
        decide
      · simp at h)
    (by decide)).1

/-! ### C10 -/

/-- Every name accumulated by the metadata-extraction fold is a threshold
attribute name. -/
theorem extract_foldl_mem (config : AppConfig) :
    ∀ (parts : List String) (acc : List String),
      (∀ x ∈ acc, x ∈ thresholdAttrNames) →
      ∀ m ∈ parts.foldl
        (fun mapped part =>
          if part = "" then mapped
          else
            let canonical := normalize_metric_name part
            if (thresholdAttr config.thresholds canonical).isSome then
              (if mapped.contains canonical then mapped else mapped ++ [canonical])
            else mapped)
        acc,
        m ∈ thresholdAttrNames := by
  intro parts
  induction parts with
  | nil => intro acc hacc m hm; exact hacc m hm
  | cons p rest ih =>
    intro acc hacc m hm
    rw [List.foldl_cons] at hm
    refine ih _ ?_ m hm
    intro x hx
    simp only [] at hx
    by_cases hp : p = ""
    · rw [if_pos hp] at hx; exact hacc x hx
    · rw [if_neg hp] at hx
      by_cases hth : (thresholdAttr config.thresholds (normalize_metric_name p)).isSome
      · rw [if_pos hth] at hx
        by_cases hc : acc.contains (normalize_metric_name p) = true
        · rw [if_pos hc] at hx; exact hacc x hx
        · rw [if_neg hc] at hx
          rcases List.mem_append.mp hx with hx | hx
          · exact hacc x hx
          · obtain rfl := List.mem_singleton.mp hx
            exact (thresholdAttr_isSome _ _).mp hth
      · rw [if_neg hth] at hx; exact hacc x hx

/-- Metadata-extracted metrics are filtered only against the threshold
configuration's attribute names. -/
theorem extract_mem_thresholds (config : AppConfig) (row : DatasetRow) :
    ∀ m ∈ _extract_metrics_from_row config row, m ∈ thresholdAttrNames := by
  intro m hm
  unfold _extract_metrics_from_row at hm
  by_cases hmeta : row.additional_metadata = []
  · rw [if_pos hmeta] at hm; simp at hm
  · rw [if_neg hmeta] at hm
    rcases hfind : (row.additional_metadata.find?
        (fun kv => metricKeyCandidates.contains (pyLower (pyStrip kv.1)))).map
        (fun kv => kv.2) with _ | v
    · rw [hfind] at hm; simp at hm
    · rw [hfind] at hm
      cases v with
      | str strv =>
        exact extract_foldl_mem config _ []
          (by intro x hx; exact absurd hx (List.not_mem_nil x)) m hm
      | list xs =>
        exact extract_foldl_mem config _ []
          (by intro x hx; exact absurd hx (List.not_mem_nil x)) m hm

/-- Whenever `_aggregate` succeeds, it yields one aggregate per selected
metric, named by the canonical selected names in order, each counting
exactly the results that bear its canonical name. -/
theorem aggregate_names_counts (sqrtFn : ℚ → ℚ) (config : AppConfig)
    (question_results : List QuestionEvalResult) :
    ∀ (selected : List String) (aggs : List MetricAggregate),
      _aggregate sqrtFn config question_results selected = Except.ok aggs →
      aggs.map (fun a => a.metric_name) = selected.map normalize_metric_name ∧
      ∀ a ∈ aggs, a.count =
        (((question_results.map (fun q => q.metrics)).flatten).filter
          (fun r => r.metric_name = a.metric_name)).length := by
  intro selected
  induction selected with
  | nil =>
    intro aggs h
    cases h
    exact ⟨rfl, by intro a ha; exact absurd ha (List.not_mem_nil a)⟩
  | cons m rest ih =>
    intro aggs h
    simp only [_aggregate] at h
    cases hth : metric_threshold (normalize_metric_name m) config with
    | none =>
      rw [hth] at h
      cases h
    | some thr =>
      rw [hth] at h
      simp only [] at h
      cases hrec : _aggregate sqrtFn config question_results rest with
      | error e =>
        rw [hrec] at h
        cases h
      | ok aggs' =>
        rw [hrec] at h
        simp only [] at h
        cases h
        obtain ⟨hnames, hcounts⟩ := ih aggs' hrec
        constructor
        · simp only [List.map_cons, aggregateOne_name, hnames]
        · intro a ha
          rcases List.mem_cons.mp ha with rfl | ha
          · rw [aggregateOne_count, aggregateOne_name]
          · exact hcounts a ha

/-- C10: in mapping mode `row`, metadata-named metrics are filtered only
against the threshold configuration's attribute names, independently of
`selected_metrics`; a recognized metric outside the selection is still
scored and its result appears in the QuestionEvalResult, but aggregates
exist only for the selected metrics, each counting only results bearing
its own canonical name — so the extra result contributes to no
MetricAggregate.  Concretely: a row naming only `faithfulness`, run with
`selected_metrics = ["answer_relevancy"]`, records a faithfulness
MetricResult while the only aggregate is `answer_relevancy` with
`count = 0`. -/
theorem c10_row_metrics_vs_selection :
    (∀ (config : AppConfig) (row : DatasetRow),
      ∀ m ∈ _extract_metrics_from_row config row, m ∈ thresholdAttrNames) ∧
    (∀ (config : AppConfig) (row : DatasetRow) (sel1 sel2 : List String)
        (i1 i2 t1 t2 : Nat),
      config.evaluation.metric_question_mapping_mode = "row" →
      _extract_metrics_from_row config row ≠ [] →
      _resolve_row_metrics config row sel1 i1 t1 =
        _resolve_row_metrics config row sel2 i2 t2) ∧
    (∀ (sqrtFn : ℚ → ℚ) (config : AppConfig) (qrs : List QuestionEvalResult)
        (selected : List String) (aggs : List MetricAggregate),
      _aggregate sqrtFn config qrs selected = Except.ok aggs →
      aggs.map (fun a => a.metric_name) = selected.map normalize_metric_name ∧
      ∀ a ∈ aggs, a.count = (((qrs.map (fun q => q.metrics)).flatten).filter
        (fun r => r.metric_name = a.metric_name)).length) ∧
    ((evaluate_dataset testEnv rowModeConfig [c10Row] ["answer_relevancy"]
        (some "S1") "f" "s" [] []).map (fun rr =>
          (rr.question_results.map (fun q => q.metrics.map (fun r => r.metric_name)),
           rr.metric_aggregates.map (fun a => (a.metric_name, a.count))))
      = Except.ok ([["faithfulness"]], [("answer_relevancy", 0)])) := by
  refine ⟨extract_mem_thresholds, ?_, ?_, ?_⟩
  · intro config row sel1 sel2 i1 i2 t1 t2 hmode hne
    unfold _resolve_row_metrics
    rw [hmode]
    simp [hne]
  · intro sqrtFn config qrs selected aggs h
    exact aggregate_names_counts sqrtFn config qrs selected aggs h
  · with_unfolding_all decide

/-- C10 witness: the general clauses applied to the concrete row-mode
run: the metadata metric is threshold-recognized, resolution ignores the
selection, and the aggregates of a one-metric selection are named by it. -/
theorem c10_witness :
    (∀ m ∈ _extract_metrics_from_row rowModeConfig c10Row, m ∈ thresholdAttrNames) ∧
    _resolve_row_metrics rowModeConfig c10Row ["answer_relevancy"] 0 1 =
      _resolve_row_metrics rowModeConfig c10Row ["contextual_recall"] 5 9 := by
  constructor
  · exact c10_row_metrics_vs_selection.1 rowModeConfig c10Row
  · exact c10_row_metrics_vs_selection.2.1 rowModeConfig c10Row
      ["answer_relevancy"] ["contextual_recall"] 0 5 1 9 (by decide) (by decide)

/-- C9 witness: a chunk limit of `-3` acts as 1 and a character limit of
`5` acts as 100. -/
theorem c9_witness :
    (_trim_retrieval_context
      { evaluation := { max_retrieval_context_chunks := -3,
                        max_retrieval_context_chars_per_chunk := 5 } }
      ["abc", "d"]).length = 1 := by
  have h := c9_trimming_bounds
    { evaluation := { max_retrieval_context_chunks := -3,
                      max_retrieval_context_chars_per_chunk := 5 } }
    ["abc", "d"] (by decide)
  rw [h.1]
  decide

end RagEval
